import Mathlib

/-!
# Runner reconciliation controller

A shallow embedding of `controllers/runner_controller.go`: the `Reconcile`
state machine of the Runner controller, the deregistration coordinator
(`unregisterRunner`), the registration token manager
(`updateRegistrationToken`), the desired-pod builder (`newPod`) and the two
finalizer helpers.

Every call that leaves the process (cluster API, registration service, clock,
random source) is answered by a `World`: one record holding the answer each
call gets during a pass.  A pass returns an `Outcome`: the calls it issued, in
order, together with the `ctrl.Result` and the error it returns.
-/

namespace ARC

/-! ## Go values -/

/-- An instant, in nanoseconds since the zero `time.Time`. -/
abbrev Time := Int

/-- A `time.Duration`: a signed 64-bit count of nanoseconds. -/
abbrev Duration := Int

def Second : Duration := 1000000000

def Minute : Duration := 60 * Second

def maxDuration : Duration := 9223372036854775807

def minDuration : Duration := -9223372036854775808

/-- Go `time.Time.Add`. -/
def Time.Add (t : Time) (d : Duration) : Time := t + d

/-- Go `time.Time.Sub`: the difference, clamped to the range of a `Duration`. -/
def Time.Sub (t u : Time) : Duration :=
  if t - u > maxDuration then maxDuration
  else if t - u < minDuration then minDuration
  else t - u

/-- Go `time.Time.After`. -/
def Time.After (t u : Time) : Bool := decide (u < t)

/-- Go `(*metav1.Time).IsZero`: a nil pointer or the zero instant. -/
def IsZero : Option Time → Bool
  | none => true
  | some t => t == 0

/-- A Go `error` value, seen through the predicates the controller applies to
it.  Each flag is the answer of one library test on the error. -/
structure GoError where
  /-- Go `err.Error()` -/
  msg : String
  /-- Go `kerrors.IsNotFound(err)` -/
  apiNotFound : Bool := false
  /-- Go `kerrors.IsAlreadyExists(err)` -/
  apiAlreadyExists : Bool := false
  /-- Go `errors.As(err, &notFoundException)` with a `*github.RunnerNotFound` target -/
  asRunnerNotFound : Bool := false
  /-- Go `errors.As(err, &offlineException)` with a `*github.RunnerOffline` target -/
  asRunnerOffline : Bool := false
  /-- Go `errors.As(err, &e)` with a `*gogithub.RateLimitError` target -/
  asRateLimit : Bool := false
  /-- Go `errors.Is(err, &gogithub.RateLimitError{})` -/
  isRateLimit : Bool := false
deriving DecidableEq, Repr

/-- Go `fmt.Errorf` of a constant text: an error no library test recognises. -/
def Errorf (text : String) : GoError := { msg := text }

/-- Go `client.IgnoreNotFound`. -/
def IgnoreNotFound (e : GoError) : Option GoError :=
  if e.apiNotFound then none else some e

/-- A Kubernetes object the controller only passes along, as its serialised
form. -/
abbrev Opaque := String

/-- A Go `map[string]string`, as its list of entries. -/
abbrev StringMap := List (String × String)

/-- Go `m[k]`: the value at the key, the empty string when the key is absent. -/
def StringMap.get (m : StringMap) (k : String) : String :=
  (m.lookup k).getD ""

/-- Go `m[k] = v`. -/
def StringMap.set (m : StringMap) (k v : String) : StringMap :=
  (k, v) :: m.filter (fun e => e.1 != k)

/-! ## Constants of the controller -/

def containerName : String := "runner"

def finalizerName : String := "runner.actions.summerwind.dev"

def LabelKeyPodTemplateHash : String := "pod-template-hash"

def retryDelayOnGitHubAPIRateLimitError : Duration := 30 * Second

/-- Modelled from the spec: the label key declared with the RunnerReplicaSet
controller, outside this file; its value is the one the comment in `newPod`
gives ("runner-template-hash" added by the parent RunnerReplicaSet). -/
def LabelKeyRunnerTemplateHash : String := "runner-template-hash"

def PodSucceeded : String := "Succeeded"

def PodRunning : String := "Running"

def PullAlways : String := "Always"

def EventTypeNormal : String := "Normal"

def EventTypeWarning : String := "Warning"

/-! ## Kubernetes objects -/

structure EnvVar where
  Name : String
  Value : String := ""
deriving DecidableEq, Repr

structure VolumeMount where
  Name : String
  MountPath : String
  ReadOnly : Bool := false
deriving DecidableEq, Repr

inductive VolumeSource where
  | EmptyDir
  | Other (source : Opaque)
deriving DecidableEq, Repr

structure Volume where
  Name : String
  VolumeSource : VolumeSource
deriving DecidableEq, Repr

structure SecurityContext where
  Privileged : Option Bool
deriving DecidableEq, Repr

structure Container where
  Name : String
  Image : String := ""
  ImagePullPolicy : String := ""
  Env : List EnvVar := []
  EnvFrom : List Opaque := []
  VolumeMounts : List VolumeMount := []
  SecurityContext : Option SecurityContext := none
  Resources : Opaque := ""
  /-- every other field of the container -/
  Rest : Opaque := ""
deriving DecidableEq, Repr

structure OwnerReference where
  Kind : String
  Name : String
  Controller : Bool
deriving DecidableEq, Repr

structure PodSpec where
  RestartPolicy : String := ""
  Containers : List Container := []
  Volumes : List Volume := []
  InitContainers : List Container := []
  NodeSelector : Option StringMap := none
  ServiceAccountName : String := ""
  AutomountServiceAccountToken : Option Bool := none
  SecurityContext : Option Opaque := none
  ImagePullSecrets : List Opaque := []
  Affinity : Option Opaque := none
  Tolerations : List Opaque := []
  EphemeralContainers : List Opaque := []
  TerminationGracePeriodSeconds : Option Int := none
deriving DecidableEq, Repr

structure ContainerStateTerminated where
  ExitCode : Int
deriving DecidableEq, Repr

structure ContainerStatus where
  Name : String
  /-- Go `State.Terminated` -/
  Terminated : Option ContainerStateTerminated := none
deriving DecidableEq, Repr

structure PodStatus where
  Phase : String := ""
  Reason : String := ""
  Message : String := ""
  ContainerStatuses : List ContainerStatus := []
deriving DecidableEq, Repr

structure Pod where
  Name : String := ""
  Namespace : String := ""
  Labels : StringMap := []
  Annotations : StringMap := []
  OwnerReferences : List OwnerReference := []
  CreationTimestamp : Time := 0
  DeletionTimestamp : Option Time := none
  Spec : PodSpec := {}
  Status : PodStatus := {}
deriving DecidableEq, Repr

/-! ## The Runner resource -/

structure RunnerSpec where
  Enterprise : String := ""
  Organization : String := ""
  Repository : String := ""
  Labels : List String := []
  Group : String := ""
  Containers : List Container := []
  DockerdContainerResources : Opaque := ""
  Resources : Opaque := ""
  VolumeMounts : List VolumeMount := []
  EnvFrom : List Opaque := []
  Image : String := ""
  ImagePullPolicy : String := ""
  Env : List EnvVar := []
  Volumes : List Volume := []
  WorkDir : String := ""
  InitContainers : List Container := []
  SidecarContainers : List Container := []
  NodeSelector : Option StringMap := none
  ServiceAccountName : String := ""
  AutomountServiceAccountToken : Option Bool := none
  SecurityContext : Option Opaque := none
  ImagePullSecrets : List Opaque := []
  Affinity : Option Opaque := none
  Tolerations : List Opaque := []
  EphemeralContainers : List Opaque := []
  TerminationGracePeriodSeconds : Option Int := none
  DockerdWithinRunnerContainer : Option Bool := none
  DockerEnabled : Option Bool := none
  DockerMTU : Option Int := none
deriving DecidableEq, Repr

/-- Modelled from the spec: the type is declared outside this file; the fields
are those of the persisted schema, `registration{organization, repository,
labels, token, expiresAt}`. -/
structure RunnerStatusRegistration where
  Organization : String := ""
  Repository : String := ""
  Labels : List String := []
  Token : String := ""
  ExpiresAt : Time := 0
deriving DecidableEq, Repr

structure RunnerStatus where
  Registration : RunnerStatusRegistration := {}
  Phase : String := ""
  Reason : String := ""
  Message : String := ""
  LastRegistrationCheckTime : Option Time := none
deriving DecidableEq, Repr

structure Runner where
  Name : String := ""
  Namespace : String := ""
  Labels : StringMap := []
  Annotations : StringMap := []
  Finalizers : List String := []
  DeletionTimestamp : Option Time := none
  Spec : RunnerSpec := {}
  Status : RunnerStatus := {}
deriving DecidableEq, Repr

/-! ## Registration service values -/

/-- A runner record of the registration service (`gogithub.Runner`): every
field is a pointer, read through a getter that gives the zero value for nil. -/
structure GitHubRunner where
  ID : Option Int := none
  Name : Option String := none
  Busy : Option Bool := none
  Status : Option String := none
deriving DecidableEq, Repr

def GitHubRunner.GetID (g : GitHubRunner) : Int := g.ID.getD 0

def GitHubRunner.GetName (g : GitHubRunner) : String := g.Name.getD ""

def GitHubRunner.GetBusy (g : GitHubRunner) : Bool := g.Busy.getD false

structure RegistrationToken where
  Token : Option String := none
  ExpiresAt : Option Time := none
deriving DecidableEq, Repr

def RegistrationToken.GetToken (t : RegistrationToken) : String := t.Token.getD ""

def RegistrationToken.GetExpiresAt (t : RegistrationToken) : Time := t.ExpiresAt.getD 0

/-! ## Calls, answers, outcomes -/

/-- A call a pass issues: a write to the cluster, a request to the
registration service, or a recorded event.  Reads of the cluster (`Get`) and
log lines are not recorded. -/
inductive Action where
  /-- Go `r.Update(ctx, newRunner)` -/
  | Update (runner : Runner)
  /-- Go `r.Patch(ctx, newRunner, client.MergeFrom(&runner))` -/
  | Patch (runner : Runner)
  /-- Go `r.Status().Update(ctx, updated)` -/
  | StatusUpdate (runner : Runner)
  /-- Go `r.Status().Patch(ctx, updated, client.MergeFrom(&runner))` -/
  | StatusPatch (runner : Runner)
  /-- Go `r.Create(ctx, &newPod)` -/
  | Create (pod : Pod)
  /-- Go `r.Delete(ctx, &pod, opts)`; `grace` is `GracePeriodSeconds` when given -/
  | Delete (pod : Pod) (grace : Option Int)
  | ListRunners (enterprise org repo : String)
  | RemoveRunner (enterprise org repo : String) (id : Int)
  | GetRegistrationToken (enterprise org repo name : String)
  | IsRunnerBusy (enterprise org repo name : String)
  /-- Go `r.Recorder.Event(&runner, eventtype, reason, message)` -/
  | Event (eventtype reason message : String)
deriving DecidableEq, Repr

/-- Go `ctrl.Result`. -/
structure Result where
  Requeue : Bool := false
  RequeueAfter : Duration := 0
deriving DecidableEq, Repr

/-- What one pass does: the calls issued in order, and the returned pair. -/
structure Outcome where
  trace : List Action
  result : Result
  err : Option GoError
deriving DecidableEq, Repr

/-- The answers the outside gives during one pass.  Each call site of the
source is reached at most once per pass, so one answer per call suffices. -/
structure World where
  /-- Go `r.Get(ctx, req.NamespacedName, &runner)` -/
  getRunner : Except GoError Runner
  /-- Go `runner.Validate()` -/
  validate : Option GoError := none
  /-- Go `r.Update` -/
  update : Option GoError := none
  /-- Go `r.Patch` -/
  patch : Option GoError := none
  /-- Go `r.GitHubClient.ListRunners` -/
  listRunners : Except GoError (List GitHubRunner) := .ok []
  /-- Go `r.GitHubClient.RemoveRunner` -/
  removeRunner : Option GoError := none
  /-- Go `r.Get(ctx, req.NamespacedName, &pod)` -/
  getPod : Except GoError Pod
  /-- Go `runner.IsRegisterable()` -/
  isRegisterable : Bool := true
  /-- Go `r.GitHubClient.GetRegistrationToken` -/
  getRegistrationToken : Except GoError RegistrationToken := .ok {}
  /-- Go `r.Status().Update` -/
  statusUpdate : Option GoError := none
  /-- Go `ctrl.SetControllerReference` -/
  setControllerReference : Option GoError := none
  /-- Go `r.Create` -/
  create : Option GoError := none
  /-- Go `r.Delete` -/
  delete : Option GoError := none
  /-- Go `r.GitHubClient.IsRunnerBusy`: both components of the returned pair -/
  isRunnerBusy : Bool × Option GoError := (false, none)
  /-- Go `r.Status().Patch` -/
  statusPatch : Option GoError := none
  /-- Go `time.Now()` in the branch of a terminating pod -/
  nowDeletion : Time := 0
  /-- Go `time.Now()` compared with the next check time -/
  nowDebounce : Time := 0
  /-- Go `time.Now()` read after `IsRunnerBusy` (`currentTime`) -/
  nowCheck : Time := 0
  /-- Go `time.Now()` stored into `LastRegistrationCheckTime` -/
  nowPatch : Time := 0
  /-- the jitter `time.Duration(rand.Float64()*maxFactor*float64(duration))`
  added inside `wait.Jitter(10*time.Second, 0.1)`, in nanoseconds: the
  floating-point product of three factors none of which is negative, truncated -/
  jitter : Nat := 0

/-- Go `RunnerReconciler`: the controller-wide settings `newPod` reads, and the
digest of package `hash`, which lies outside this file and is kept abstract as
a function of the four objects it is applied to. -/
structure RunnerReconciler where
  RunnerImage : String := ""
  DockerImage : String := ""
  GithubBaseURL : String := ""
  FNVHashStringObjects : StringMap → StringMap → RunnerSpec → String → String

/-! ## Finalizers -/

/-- The loop of `addFinalizer`: whether some entry is the finalizer. -/
def addFinalizerLoop : List String → Bool → Bool
  | [], exists_ => exists_
  | name :: rest, exists_ =>
    addFinalizerLoop rest (if name == finalizerName then true else exists_)

def addFinalizer (finalizers : List String) : List String × Bool :=
  if addFinalizerLoop finalizers false then (finalizers, false)
  else (finalizers ++ [finalizerName], true)

/-- The loop of `removeFinalizer`, on the pair `(result, removed)`. -/
def removeFinalizerLoop : List String → List String × Bool → List String × Bool
  | [], acc => acc
  | name :: rest, (result, removed) =>
    if name == finalizerName then removeFinalizerLoop rest (result, true)
    else removeFinalizerLoop rest (result ++ [name], removed)

def removeFinalizer (finalizers : List String) : List String × Bool :=
  removeFinalizerLoop finalizers ([], false)

/-! ## Deregistration coordinator -/

/-- The loop of `unregisterRunner`: the id found (0 when no entry has the
name), or the error of a busy runner. -/
def unregisterLoop (name : String) : List GitHubRunner → Except GoError Int
  | [] => .ok 0
  | runner :: rest =>
    if runner.GetName == name then
      if runner.GetBusy then .error (Errorf "runner is busy")
      else .ok runner.GetID
    else unregisterLoop name rest

def unregisterRunner (w : World) (enterprise org repo name : String) :
    List Action × Bool × Option GoError :=
  match w.listRunners with
  | .error err => ([.ListRunners enterprise org repo], false, some err)
  | .ok runners =>
    match unregisterLoop name runners with
    | .error err => ([.ListRunners enterprise org repo], false, some err)
    | .ok id =>
      if id == 0 then ([.ListRunners enterprise org repo], false, none)
      else
        match w.removeRunner with
        | some err =>
          ([.ListRunners enterprise org repo, .RemoveRunner enterprise org repo id], false, some err)
        | none =>
          ([.ListRunners enterprise org repo, .RemoveRunner enterprise org repo id], true, none)

/-! ## Registration token manager -/

def updateRegistrationToken (w : World) (runner : Runner) :
    List Action × Bool × Option GoError :=
  if w.isRegisterable then ([], false, none)
  else
    let call := Action.GetRegistrationToken runner.Spec.Enterprise runner.Spec.Organization
      runner.Spec.Repository runner.Name
    match w.getRegistrationToken with
    | .error err =>
      ([call, .Event EventTypeWarning "FailedUpdateRegistrationToken"
          "Updating registration token failed"], false, some err)
    | .ok rt =>
      let updated : Runner := { runner with
        Status := { runner.Status with
          Registration := {
            Organization := runner.Spec.Organization
            Repository := runner.Spec.Repository
            Labels := runner.Spec.Labels
            Token := rt.GetToken
            ExpiresAt := rt.GetExpiresAt } } }
      match w.statusUpdate with
      | some err => ([call, .StatusUpdate updated], false, some err)
      | none =>
        ([call, .StatusUpdate updated,
          .Event EventTypeNormal "RegistrationTokenUpdated"
            "Successfully update registration token"], true, none)

/-! ## Desired-pod builder -/

/-- Modelled from the spec: the helper is defined with the RunnerReplicaSet
controller, outside this file; it gives the labels with the one key excluded
("Runner labels with the hash label itself excluded"). -/
def filterLabels (labels : StringMap) (filter : String) : StringMap :=
  labels.filter (fun e => e.1 != filter)

/-- The assignment to element 0 of a slice.  The slices `newPod` indexes are
never empty. -/
def modifyFirst (f : Container → Container) : List Container → List Container
  | [] => []
  | c :: cs => f c :: cs

/-- The slice `env` of `newPod`, after `runner.Spec.Env` is appended. -/
def newPodEnv (r : RunnerReconciler) (runner : Runner) : List EnvVar :=
  let dockerdInRunner : Bool := runner.Spec.DockerdWithinRunnerContainer == some true
  let workDir := if runner.Spec.WorkDir == "" then "/runner/_work" else runner.Spec.WorkDir
  [ { Name := "RUNNER_NAME", Value := runner.Name },
    { Name := "RUNNER_ORG", Value := runner.Spec.Organization },
    { Name := "RUNNER_REPO", Value := runner.Spec.Repository },
    { Name := "RUNNER_ENTERPRISE", Value := runner.Spec.Enterprise },
    { Name := "RUNNER_LABELS", Value := String.intercalate "," runner.Spec.Labels },
    { Name := "RUNNER_GROUP", Value := runner.Spec.Group },
    { Name := "RUNNER_TOKEN", Value := runner.Status.Registration.Token },
    { Name := "DOCKERD_IN_RUNNER", Value := if dockerdInRunner then "true" else "false" },
    { Name := "GITHUB_URL", Value := r.GithubBaseURL },
    { Name := "RUNNER_WORKDIR", Value := workDir } ] ++ runner.Spec.Env

/-- The value `newPod` stores under the pod-template-hash label. -/
def podTemplateHash (r : RunnerReconciler) (runner : Runner) : String :=
  r.FNVHashStringObjects
    (filterLabels runner.Labels LabelKeyRunnerTemplateHash)
    runner.Annotations
    runner.Spec
    r.GithubBaseURL

/-- The containers `newPod` builds before any override: the `runner` container
and, when docker runs beside the runner, the `docker` sidecar. -/
def builtinContainers (r : RunnerReconciler) (runner : Runner) : List Container :=
  let privileged : Bool := true
  let dockerdInRunner : Bool := runner.Spec.DockerdWithinRunnerContainer == some true
  let dockerEnabled : Bool :=
    match runner.Spec.DockerEnabled with
    | none => true
    | some b => b
  let runnerImage := if runner.Spec.Image == "" then r.RunnerImage else runner.Spec.Image
  let workDir := if runner.Spec.WorkDir == "" then "/runner/_work" else runner.Spec.WorkDir
  let runnerImagePullPolicy :=
    if runner.Spec.ImagePullPolicy == "" then PullAlways else runner.Spec.ImagePullPolicy
  let env := newPodEnv r runner
  let c0 : Container := {
    Name := containerName
    Image := runnerImage
    ImagePullPolicy := runnerImagePullPolicy
    Env := env
    EnvFrom := runner.Spec.EnvFrom
    SecurityContext := some { Privileged := runner.Spec.DockerdWithinRunnerContainer }
    Resources := runner.Spec.Resources }
  let c0 : Container :=
    match runner.Spec.DockerMTU with
    | some mtu =>
      if dockerdInRunner then { c0 with Env := c0.Env ++ [{ Name := "MTU", Value := toString mtu }] }
      else c0
    | none => c0
  let runnerVolumeName := "runner"
  let runnerVolumeMountPath := "/runner"
  if !dockerdInRunner && dockerEnabled then
    let c0 : Container := { c0 with
      VolumeMounts :=
        [ { Name := "work", MountPath := workDir },
          { Name := runnerVolumeName, MountPath := runnerVolumeMountPath },
          { Name := "certs-client", MountPath := "/certs/client", ReadOnly := true } ]
      Env := c0.Env ++
        [ { Name := "DOCKER_HOST", Value := "tcp://localhost:2376" },
          { Name := "DOCKER_TLS_VERIFY", Value := "1" },
          { Name := "DOCKER_CERT_PATH", Value := "/certs/client" } ] }
    let c1 : Container := {
      Name := "docker"
      Image := r.DockerImage
      VolumeMounts :=
        [ { Name := "work", MountPath := workDir },
          { Name := runnerVolumeName, MountPath := runnerVolumeMountPath },
          { Name := "certs-client", MountPath := "/certs/client" } ]
      Env := [ { Name := "DOCKER_TLS_CERTDIR", Value := "/certs" } ]
      SecurityContext := some { Privileged := some privileged }
      Resources := runner.Spec.DockerdContainerResources }
    let c1 : Container :=
      match runner.Spec.DockerMTU with
      | some mtu =>
        { c1 with Env := c1.Env ++
            [{ Name := "DOCKERD_ROOTLESS_ROOTLESSKIT_MTU", Value := toString mtu }] }
      | none => c1
    [c0, c1]
  else [c0]

/-- The volumes `newPod` builds before `runner.Spec.Volumes` are appended: the
three emptyDir volumes shared with the `docker` sidecar, when there is one. -/
def builtinVolumes (runner : Runner) : List Volume :=
  let dockerdInRunner : Bool := runner.Spec.DockerdWithinRunnerContainer == some true
  let dockerEnabled : Bool :=
    match runner.Spec.DockerEnabled with
    | none => true
    | some b => b
  let runnerVolumeName := "runner"
  if !dockerdInRunner && dockerEnabled then
    [ { Name := "work", VolumeSource := .EmptyDir },
      { Name := runnerVolumeName, VolumeSource := .EmptyDir },
      { Name := "certs-client", VolumeSource := .EmptyDir } ]
  else []

/-- The container list of the pod `newPod` returns: the built-in containers,
replaced by `runner.Spec.Containers` when that list is not empty (with the
standard environment appended to those named `runner`), then the volume mounts
of the spec appended to the first container, then the sidecars of the spec.
In the source the replaced list shares its elements with the Runner of the
caller, so the appended environment is also seen there; the pod is built from
values read before that, and the merge patches the caller computes later
compare the Runner with a copy of itself, so neither depends on it. -/
def newPodContainers (r : RunnerReconciler) (runner : Runner) : List Container :=
  let env := newPodEnv r runner
  let containers := builtinContainers r runner
  let containers : List Container :=
    if runner.Spec.Containers.length != 0 then
      runner.Spec.Containers.map fun c =>
        if c.Name == containerName then { c with Env := c.Env ++ env } else c
    else containers
  let containers : List Container :=
    if runner.Spec.VolumeMounts.length != 0 then
      modifyFirst (fun c => { c with VolumeMounts := c.VolumeMounts ++ runner.Spec.VolumeMounts })
        containers
    else containers
  if runner.Spec.SidecarContainers.length != 0 then containers ++ runner.Spec.SidecarContainers
  else containers

/-- The builder `newPod`.  Its last argument is the answer of
`ctrl.SetControllerReference`, which on success records the runner as the
controlling owner of the pod.  The fields of the pod spec that the source
copies from the runner spec when they are set start from their zero value, so
each is the value of the runner spec. -/
def newPod (r : RunnerReconciler) (runner : Runner) (setControllerReference : Option GoError) :
    Pod × Option GoError :=
  let labels : StringMap := runner.Labels.foldl (fun m e => m.set e.1 e.2) []
  let labels := labels.set LabelKeyPodTemplateHash (podTemplateHash r runner)
  let volumes : List Volume := builtinVolumes runner
  let volumes : List Volume :=
    if runner.Spec.Volumes.length != 0 then volumes ++ runner.Spec.Volumes else volumes
  let initContainers : List Container :=
    if runner.Spec.InitContainers.length != 0 then [] ++ runner.Spec.InitContainers else []
  let pod : Pod := {
    Name := runner.Name
    Namespace := runner.Namespace
    Labels := labels
    Annotations := runner.Annotations
    Spec := {
      RestartPolicy := "OnFailure"
      Containers := newPodContainers r runner
      Volumes := volumes
      InitContainers := initContainers
      NodeSelector := runner.Spec.NodeSelector
      ServiceAccountName := runner.Spec.ServiceAccountName
      AutomountServiceAccountToken := runner.Spec.AutomountServiceAccountToken
      SecurityContext := runner.Spec.SecurityContext
      ImagePullSecrets := runner.Spec.ImagePullSecrets
      Affinity := runner.Spec.Affinity
      Tolerations := runner.Spec.Tolerations
      EphemeralContainers := runner.Spec.EphemeralContainers
      TerminationGracePeriodSeconds := runner.Spec.TerminationGracePeriodSeconds } }
  match setControllerReference with
  | some err => (pod, some err)
  | none =>
    ({ pod with
        OwnerReferences := [{ Kind := "Runner", Name := runner.Name, Controller := true }] },
      none)

/-! ## The reconciler -/

/-- Go `wait.Jitter(duration, maxFactor)`, which returns
`duration + time.Duration(rand.Float64()*maxFactor*float64(duration))`.  The
second summand is computed in floating point from a random draw and is taken
as given: `jitter` is its value in nanoseconds.  The library documents the
result as lying between `duration` and `duration + maxFactor * duration`, that
is `jitter` as at most `maxFactor * duration`. -/
def Jitter (duration : Duration) (jitter : Nat) : Duration :=
  duration + jitter

/-- The loop over `pod.Status.ContainerStatuses` that looks for a `runner`
container terminated with exit code 0. -/
def containerStatusLoop : List ContainerStatus → Bool → Bool
  | [], restart => restart
  | status :: rest, restart =>
    if status.Name != containerName then containerStatusLoop rest restart
    else
      match status.Terminated with
      | some t => if t.ExitCode == 0 then containerStatusLoop rest true
                  else containerStatusLoop rest restart
      | none => containerStatusLoop rest restart

/-- The end of `Reconcile` for a live pod, from "Don't do anything if there's
no need to restart the runner" on. -/
def finishLivePod (w : World) (runner : Runner) (pod newPod : Pod) (trace : List Action)
    (restart : Bool) (registrationRecheckDelay : Duration) : Outcome :=
  if !restart then
    if registrationRecheckDelay > 0 then
      let updated : Runner := { runner with
        Status := { runner.Status with LastRegistrationCheckTime := some w.nowPatch } }
      match w.statusPatch with
      | some err => ⟨trace ++ [.StatusPatch updated], {}, some err⟩
      | none => ⟨trace ++ [.StatusPatch updated], { RequeueAfter := registrationRecheckDelay }, none⟩
    else if runner.Status.Phase != pod.Status.Phase then
      let updated : Runner := { runner with
        Status := { runner.Status with
          Phase := pod.Status.Phase
          Reason := pod.Status.Reason
          Message := pod.Status.Message } }
      match w.statusPatch with
      | some err => ⟨trace ++ [.StatusPatch updated], {}, some err⟩
      | none => ⟨trace ++ [.StatusPatch updated], {}, none⟩
    else ⟨trace, {}, none⟩
  else
    match w.delete with
    | some err => ⟨trace ++ [.Delete pod none], {}, some err⟩
    | none =>
      ⟨trace ++ [.Delete pod none,
          .Event EventTypeNormal "PodDeleted" ("Deleted pod '" ++ newPod.Name ++ "'")],
        {}, none⟩

/-- The debounce of the registration check: whether the last check time is
set and the next check time, one minute later, is after now. -/
def registrationCheckDeferred (w : World) (runner : Runner) : Bool :=
  let registrationCheckInterval := Minute
  match runner.Status.LastRegistrationCheckTime with
  | some lastCheckTime =>
    Time.After (Time.Add lastCheckTime registrationCheckInterval) w.nowDebounce
  | none => false

/-- The restart decisions of `Reconcile` once the answer of `IsRunnerBusy` is
classified (`notFound`, `offline`): the hash comparison, the registration
timeout and the recheck delay, followed by the end of the pass. -/
def decideRestart (w : World) (runner : Runner) (pod newPod : Pod) (trace : List Action)
    (notFound offline : Bool) : Outcome :=
  let registrationCheckInterval := Minute
  let runnerBusy := w.isRunnerBusy.1
  let currentTime := w.nowCheck
  let curHash := pod.Labels.get LabelKeyPodTemplateHash
  let newHash := newPod.Labels.get LabelKeyPodTemplateHash
  let restart : Bool := if !runnerBusy && curHash != newHash then true else false
  let registrationTimeout := 10 * Minute
  let durationAfterRegistrationTimeout :=
    Time.Sub currentTime (Time.Add pod.CreationTimestamp registrationTimeout)
  let registrationDidTimeout : Bool := durationAfterRegistrationTimeout > 0
  let restart : Bool :=
    if notFound then (if registrationDidTimeout then true else restart)
    else if offline then (if registrationDidTimeout then true else restart)
    else restart
  let registrationRecheckDelay : Duration :=
    if (notFound || offline) && !registrationDidTimeout then
      registrationCheckInterval + Jitter (10 * Second) w.jitter
    else 0
  finishLivePod w runner pod newPod trace restart registrationRecheckDelay

/-- The block of `Reconcile` guarded by `if !restart`: the debounce, the query
of the registration service and the classification of its answer. -/
def checkRegistration (w : World) (runner : Runner) (pod newPod : Pod) (trace : List Action) :
    Outcome :=
  if registrationCheckDeferred w runner then ⟨trace, {}, none⟩
  else
    let trace := trace ++ [.IsRunnerBusy runner.Spec.Enterprise runner.Spec.Organization
      runner.Spec.Repository runner.Name]
    match w.isRunnerBusy.2 with
    | none => decideRestart w runner pod newPod trace false false
    | some err =>
      if err.asRunnerNotFound then decideRestart w runner pod newPod trace true false
      else if err.asRunnerOffline then decideRestart w runner pod newPod trace false true
      else if err.asRateLimit then
        ⟨trace, { RequeueAfter := retryDelayOnGitHubAPIRateLimitError }, some err⟩
      else ⟨trace, {}, some err⟩

/-- The restart decision `Reconcile` takes from the pod alone: the phase is
`Succeeded`, or the phase is `Running` and a `runner` container has terminated
with exit code 0. -/
def podCompleted (pod : Pod) : Bool :=
  let restart : Bool := pod.Status.Phase == PodSucceeded
  if pod.Status.Phase == PodRunning then containerStatusLoop pod.Status.ContainerStatuses restart
  else restart

/-- The branch of `Reconcile` for a pod without a deletion timestamp. -/
def reconcileLivePod (r : RunnerReconciler) (w : World) (runner : Runner) (pod : Pod) : Outcome :=
  let restart : Bool := podCompleted pod
  match updateRegistrationToken w runner with
  | (trace, _, some err) => ⟨trace, {}, some err⟩
  | (trace, true, none) => ⟨trace, { Requeue := true }, none⟩
  | (trace, false, none) =>
    match newPod r runner w.setControllerReference with
    | (_, some err) => ⟨trace, {}, some err⟩
    | (newPod, none) =>
      if !restart then checkRegistration w runner pod newPod trace
      else finishLivePod w runner pod newPod trace restart 0

/-- The branch of `Reconcile` for a pod that carries a deletion timestamp. -/
def reconcileTerminatingPod (w : World) (pod : Pod) (deletionTimestamp : Time) : Outcome :=
  let deletionTimeout := 1 * Minute
  let currentTime := w.nowDeletion
  let deletionDidTimeout : Bool :=
    Time.Sub currentTime (Time.Add deletionTimestamp deletionTimeout) > 0
  if deletionDidTimeout then
    let force : Int := 0
    match w.delete with
    | some err =>
      if !err.apiNotFound then ⟨[.Delete pod (some force)], {}, some err⟩
      else ⟨[.Delete pod (some force)], { Requeue := true }, none⟩
    | none =>
      ⟨[.Delete pod (some force),
          .Event EventTypeNormal "PodDeleted" ("Forcefully deleted pod '" ++ pod.Name ++ "'")],
        { RequeueAfter := 3 * Second }, none⟩
  else ⟨[], {}, none⟩

/-- The branch of `Reconcile` taken when reading the pod fails with not-found. -/
def reconcileNoPod (r : RunnerReconciler) (w : World) (runner : Runner) : Outcome :=
  match updateRegistrationToken w runner with
  | (trace, _, some err) => ⟨trace, {}, some err⟩
  | (trace, true, none) => ⟨trace, { Requeue := true }, none⟩
  | (trace, false, none) =>
    match newPod r runner w.setControllerReference with
    | (_, some err) => ⟨trace, {}, some err⟩
    | (newPod, none) =>
      match w.create with
      | some err =>
        if err.apiAlreadyExists then
          ⟨trace ++ [.Create newPod], { RequeueAfter := 10 * Second }, none⟩
        else ⟨trace ++ [.Create newPod], {}, some err⟩
      | none =>
        ⟨trace ++ [.Create newPod,
            .Event EventTypeNormal "PodCreated" ("Created pod '" ++ newPod.Name ++ "'")],
          {}, none⟩

/-- The part of `Reconcile` after the finalizer handling: read the pod and
dispatch on what is found. -/
def reconcilePod (r : RunnerReconciler) (w : World) (runner : Runner) : Outcome :=
  match w.getPod with
  | .error err =>
    if !err.apiNotFound then ⟨[], {}, some err⟩
    else reconcileNoPod r w runner
  | .ok pod =>
    if !IsZero pod.DeletionTimestamp then
      reconcileTerminatingPod w pod (pod.DeletionTimestamp.getD 0)
    else reconcileLivePod r w runner pod

/-- The deletion path of `Reconcile`: deregister, then drop the finalizer. -/
def reconcileDeletion (w : World) (runner : Runner) : Outcome :=
  let (finalizers, removed) := removeFinalizer runner.Finalizers
  if removed then
    let newRunner : Runner := { runner with Finalizers := finalizers }
    let patch (trace : List Action) : Outcome :=
      match w.patch with
      | some err => ⟨trace ++ [.Patch newRunner], {}, some err⟩
      | none => ⟨trace ++ [.Patch newRunner], {}, none⟩
    if runner.Status.Registration.Token.length > 0 then
      match unregisterRunner w runner.Spec.Enterprise runner.Spec.Organization
          runner.Spec.Repository runner.Name with
      | (trace, _, some err) =>
        if err.isRateLimit then
          ⟨trace, { RequeueAfter := retryDelayOnGitHubAPIRateLimitError }, some err⟩
        else ⟨trace, {}, some err⟩
      | (trace, _, none) => patch trace
    else patch []
  else ⟨[], {}, none⟩

def Reconcile (r : RunnerReconciler) (w : World) : Outcome :=
  match w.getRunner with
  | .error err => ⟨[], {}, IgnoreNotFound err⟩
  | .ok runner =>
    match w.validate with
    | some _ => ⟨[], {}, none⟩
    | none =>
      if IsZero runner.DeletionTimestamp then
        let (finalizers, added) := addFinalizer runner.Finalizers
        if added then
          let newRunner : Runner := { runner with Finalizers := finalizers }
          match w.update with
          | some err => ⟨[.Update newRunner], {}, some err⟩
          | none => ⟨[.Update newRunner], {}, none⟩
        else reconcilePod r w runner
      else reconcileDeletion w runner

/-! ## Reading a trace -/

/-- The pod and grace period of a `Delete`. -/
@[simp]
def Action.asDelete : Action → Option (Pod × Option Int)
  | .Delete pod grace => some (pod, grace)
  | _ => none

/-- The pod of a `Create`. -/
@[simp]
def Action.asCreate : Action → Option Pod
  | .Create pod => some pod
  | _ => none

/-- The runner name asked by an `IsRunnerBusy`. -/
@[simp]
def Action.asBusyQuery : Action → Option String
  | .IsRunnerBusy _ _ _ name => some name
  | _ => none

/-- The id removed by a `RemoveRunner`. -/
@[simp]
def Action.asRemoval : Action → Option Int
  | .RemoveRunner _ _ _ id => some id
  | _ => none

/-- Whether a call is a request to the registration service. -/
@[simp]
def Action.isServiceCall : Action → Bool
  | .ListRunners _ _ _ => true
  | .RemoveRunner _ _ _ _ => true
  | .GetRegistrationToken _ _ _ _ => true
  | .IsRunnerBusy _ _ _ _ => true
  | _ => false

/-- Whether a call writes the Runner: `Update`, `Patch`, or either write of
its status. -/
@[simp]
def Action.isRunnerWrite : Action → Bool
  | .Update _ => true
  | .Patch _ => true
  | .StatusUpdate _ => true
  | .StatusPatch _ => true
  | _ => false

/-- The pod deletions of a trace, each with its grace period. -/
def podDeletes (trace : List Action) : List (Pod × Option Int) := trace.filterMap Action.asDelete

/-- The pod creations of a trace. -/
def podCreates (trace : List Action) : List Pod := trace.filterMap Action.asCreate

/-- The `IsRunnerBusy` queries of a trace, each with the runner name asked. -/
def busyQueries (trace : List Action) : List String := trace.filterMap Action.asBusyQuery

/-- The `RemoveRunner` calls of a trace, each with the id removed. -/
def removals (trace : List Action) : List Int := trace.filterMap Action.asRemoval

/-- The writes of the Runner in a trace. -/
def runnerWrites (trace : List Action) : List Action := trace.filter Action.isRunnerWrite

/-- The requests to the registration service in a trace. -/
def serviceCalls (trace : List Action) : List Action := trace.filter Action.isServiceCall

/-- Whether the Runner has no pod: reading the pod fails with a not-found
error. -/
def podMissing (w : World) : Bool :=
  match w.getPod with
  | .error err => err.apiNotFound
  | .ok _ => false

/-- The Runner of a `Status().Update`, the write of the token manager. -/
@[simp]
def Action.asTokenUpdate : Action → Option Runner
  | .StatusUpdate runner => some runner
  | _ => none

/-- The status updates of a trace: the writes of `updateRegistrationToken`. -/
def tokenUpdates (trace : List Action) : List Runner := trace.filterMap Action.asTokenUpdate

/-- What a pass becomes once `updateRegistrationToken` is called on a Runner
that is not registerable: the outcome is that of the token manager, whether the
pod is missing or live. -/
def issueToken (w : World) (runner : Runner) : Outcome :=
  match updateRegistrationToken w runner with
  | (trace, _, some err) => ⟨trace, {}, some err⟩
  | (trace, true, none) => ⟨trace, { Requeue := true }, none⟩
  | (trace, false, none) => ⟨trace, {}, none⟩

/-- The conditions under which a pass reaches the query of the registration
service, on the runner and the pod it has read. -/
structure ReachesCheck (r : RunnerReconciler) (w : World) (runner : Runner) (pod : Pod) :
    Prop where
  getRunner : w.getRunner = .ok runner
  valid : w.validate = none
  notDeleted : IsZero runner.DeletionTimestamp = true
  hasFinalizer : (addFinalizer runner.Finalizers).2 = false
  getPod : w.getPod = .ok pod
  live : IsZero pod.DeletionTimestamp = true
  notCompleted : podCompleted pod = false
  registerable : w.isRegisterable = true
  built : w.setControllerReference = none
  notDeferred : registrationCheckDeferred w runner = false

/-! ## Sample passes -/

/-- A controller whose digest is a stand-in: the image of the spec and the
base URL, joined. -/
def sampleReconciler : RunnerReconciler where
  RunnerImage := "summerwind/actions-runner:latest"
  DockerImage := "docker:dind"
  GithubBaseURL := "https://github.example.com/"
  FNVHashStringObjects := fun _ _ spec url => spec.Image ++ "@" ++ url

/-- A registered runner that carries the finalizer. -/
def sampleRunner : Runner where
  Name := "r1"
  Namespace := "default"
  Finalizers := [finalizerName]
  Spec := { Repository := "acme/app" }
  Status := { Registration := { Repository := "acme/app", Token := "tok", ExpiresAt := 7200 * Second },
              Phase := "Running" }

/-- A running pod of `sampleRunner`, created at instant 0, whose hash label is
the digest `sampleReconciler` computes for `sampleRunner`. -/
def samplePod : Pod where
  Name := "r1"
  Namespace := "default"
  Labels := [(LabelKeyPodTemplateHash, "@https://github.example.com/")]
  Status := { Phase := "Running" }

/-- A pass over `sampleRunner` and `samplePod`, 100 seconds after the pod was
created, in which every call succeeds and the runner is reported idle. -/
def sampleWorld : World where
  getRunner := .ok sampleRunner
  getPod := .ok samplePod
  nowDeletion := 100 * Second
  nowDebounce := 100 * Second
  nowCheck := 100 * Second
  nowPatch := 100 * Second

/-- The runner `sampleRunner` once its deletion was requested, at second 50. -/
def deletedRunner : Runner := { sampleRunner with DeletionTimestamp := some (50 * Second) }

/-- A record of the registration service for `sampleRunner`. -/
def sampleRecord (busy : Bool) : GitHubRunner :=
  { ID := some 8, Name := some "r1", Busy := some busy, Status := some "online" }

/-- A pass over `deletedRunner` while the registration service lists it with
the given busy flag. -/
def deletionWorld (busy : Bool) : World :=
  { sampleWorld with
    getRunner := .ok deletedRunner
    listRunners := .ok [{ ID := some 7, Name := some "r0" }, sampleRecord busy] }

/-- An error no library test recognises. -/
def plainError : GoError := { msg := "failed" }

/-- The pod `samplePod` once its deletion was requested, at second 40. -/
def terminatingPod : Pod := { samplePod with DeletionTimestamp := some (40 * Second) }

/-- An answer of `IsRunnerBusy` for a runner the service does not list. -/
def notFoundError : GoError := { msg := "runner not found", asRunnerNotFound := true }

/-- An answer of `IsRunnerBusy` for a runner the service lists as offline. -/
def offlineError : GoError := { msg := "runner offline", asRunnerOffline := true }

/-- The pod `samplePod` carrying a hash label the controller does not compute. -/
def stalePod : Pod := { samplePod with Labels := [(LabelKeyPodTemplateHash, "stale")] }

/-- A not-found answer of the cluster API. -/
def apiNotFoundError : GoError := { msg := "not found", apiNotFound := true }

/-- A pass over `sampleRunner` when it has no pod. -/
def noPodWorld : World := { sampleWorld with getPod := .error apiNotFoundError }

/-- A runner whose spec overrides the container list with one container that
is not named `runner`; only the token of its status varies. -/
def customRunner (token : String) : Runner :=
  { sampleRunner with
    Spec := { sampleRunner.Spec with Containers := [{ Name := "custom", Image := "acme/job:1" }] }
    Status := { sampleRunner.Status with
      Registration := { sampleRunner.Status.Registration with Token := token } } }

/-- The runner `sampleRunner` after its token was renewed and a registration
check was recorded: only the status differs. -/
def rotatedRunner : Runner :=
  { sampleRunner with
    Status := { sampleRunner.Status with
      Registration := { sampleRunner.Status.Registration with
        Token := "tok2", ExpiresAt := 10800 * Second }
      LastRegistrationCheckTime := some (30 * Second) } }

/-- The runner `sampleRunner` before its status has mirrored the pod. -/
def freshRunner : Runner :=
  { sampleRunner with Status := { sampleRunner.Status with Phase := "" } }

/-- A first pass, at second 100, over `freshRunner` and its running pod. -/
def firstPass : World := { sampleWorld with getRunner := .ok freshRunner }

/-- The next pass, one second later, over the Runner as `firstPass` has
written it. -/
def secondPass : World :=
  { sampleWorld with
    nowDeletion := 101 * Second
    nowDebounce := 101 * Second
    nowCheck := 101 * Second
    nowPatch := 101 * Second }

/-- The pass `sampleWorld` when the registration service does not list the
runner yet. -/
def unlistedWorld : World := { sampleWorld with isRunnerBusy := (false, some notFoundError) }

/-- A live pod in phase `Failed` whose `runner` container has terminated with
exit code 0. -/
def failedPod : Pod :=
  { samplePod with
    Status := { Phase := "Failed"
                ContainerStatuses := [{ Name := "runner", Terminated := some { ExitCode := 0 } }] } }

/-- A live pod in phase `Succeeded`. -/
def succeededPod : Pod := { samplePod with Status := { Phase := PodSucceeded } }

/-- A live pod in phase `Running` whose `runner` container has terminated with
exit code 0 beside a sidecar that still runs. -/
def exitedPod : Pod :=
  { samplePod with
    Status := { Phase := PodRunning
                ContainerStatuses := [{ Name := "docker" },
                                      { Name := "runner", Terminated := some { ExitCode := 0 } }] } }

/-- A `*gogithub.RateLimitError` as the registration-service client returns
it.  `errors.As` with a `*gogithub.RateLimitError` target finds it.
`errors.Is(err, &gogithub.RateLimitError{})` does not: the target is a pointer
allocated by the test itself, `errors.Is` compares the error and the target
with `==`, and the v33 type the controller imports has no `Is` method. -/
def rateLimitError : GoError :=
  { msg := "API rate limit exceeded", asRateLimit := true, isRateLimit := false }

/-- A running pod of `sampleRunner` that reports a reason and a message. -/
def troubledPod : Pod :=
  { samplePod with
    Status := { Phase := "Running", Reason := "NodeLost", Message := "node is not ready" } }

/-- The runner `freshRunner` with a registration check recorded at second 90. -/
def checkedRunner : Runner :=
  { freshRunner with
    Status := { freshRunner.Status with LastRegistrationCheckTime := some (90 * Second) } }

/-- A token of the registration service, valid until second 3700. -/
def sampleToken : RegistrationToken := { Token := some "new", ExpiresAt := some (3700 * Second) }

/-- A pass over `sampleRunner` when it is not registerable and the registration
service issues `sampleToken`. -/
def tokenWorld : World :=
  { sampleWorld with isRegisterable := false, getRegistrationToken := .ok sampleToken }

/-- The shapes a write of the Runner can take in a pass that has read `runner`:
the `Update` that appends the finalizer, the `Patch` that drops it, the status
update of the token manager, and the two status patches, of the check time and
of phase, reason and message.  Calls that do not write the Runner are not
constrained. -/
def expectedWrite (w : World) (runner : Runner) : Action → Prop
  | .Update u =>
    finalizerName ∉ runner.Finalizers ∧
      u = { runner with Finalizers := runner.Finalizers ++ [finalizerName] }
  | .Patch u =>
    u = { runner with Finalizers := runner.Finalizers.filter (fun f => f != finalizerName) }
  | .StatusUpdate u =>
    ∃ rt : RegistrationToken,
      u = { runner with
        Status := { runner.Status with
          Registration := {
            Organization := runner.Spec.Organization
            Repository := runner.Spec.Repository
            Labels := runner.Spec.Labels
            Token := rt.GetToken
            ExpiresAt := rt.GetExpiresAt } } }
  | .StatusPatch u =>
    u = { runner with
        Status := { runner.Status with LastRegistrationCheckTime := some w.nowPatch } } ∨
      ∃ pod : Pod,
        u = { runner with
          Status := { runner.Status with
            Phase := pod.Status.Phase
            Reason := pod.Status.Reason
            Message := pod.Status.Message } }
  | _ => True

/-- The Runner a call writes, when the call is a write of the Runner issued
outside the token manager: an `Update`, a `Patch` or a status patch. -/
def Action.asOtherWrite : Action → Option Runner
  | .Update u => some u
  | .Patch u => some u
  | .StatusPatch u => some u
  | _ => none

/-- The runner `sampleRunner` before the controller has marked it: its
finalizer list holds only a finalizer of another controller. -/
def unmarkedRunner : Runner := { sampleRunner with Finalizers := ["example.com/cleanup"] }

/-- A runner whose spec overrides the container list with a job container and
a `runner` container, and adds a volume mount and a sidecar. -/
def overrideRunner : Runner :=
  { sampleRunner with
    Spec := { sampleRunner.Spec with
      Containers := [{ Name := "job", Image := "acme/job:1" },
                     { Name := "runner", Image := "acme/runner:1", Env := [{ Name := "A", Value := "1" }] }]
      VolumeMounts := [{ Name := "cache", MountPath := "/cache" }]
      SidecarContainers := [{ Name := "proxy", Image := "acme/proxy:1" }] } }

/-- The layout of a pod with the docker sidecar: exactly two containers,
`runner` followed by a privileged `docker` container that uses the sidecar
image of the controller; the emptyDir volumes `work`, `runner` and
`certs-client`, each mounted in both containers; and the three variables that
point the runner at the sidecar in the environment of the `runner` container. -/
def dockerSidecarLayout (r : RunnerReconciler) (pod : Pod) : Prop :=
  ∃ c0 c1 : Container, pod.Spec.Containers = [c0, c1] ∧
    c0.Name = "runner" ∧ c1.Name = "docker" ∧ c1.Image = r.DockerImage ∧
    c1.SecurityContext = some { Privileged := some true } ∧
    (∀ n ∈ ["work", "runner", "certs-client"],
      ({ Name := n, VolumeSource := .EmptyDir } : Volume) ∈ pod.Spec.Volumes ∧
      (∃ m ∈ c0.VolumeMounts, m.Name = n) ∧ (∃ m ∈ c1.VolumeMounts, m.Name = n)) ∧
    ({ Name := "DOCKER_HOST", Value := "tcp://localhost:2376" } : EnvVar) ∈ c0.Env ∧
    ({ Name := "DOCKER_TLS_VERIFY", Value := "1" } : EnvVar) ∈ c0.Env ∧
    ({ Name := "DOCKER_CERT_PATH", Value := "/certs/client" } : EnvVar) ∈ c0.Env

/-- A runner that disables docker and brings, in its own spec, a variable and
a volume with the names and values the docker sidecar layout uses. -/
def externalDockerRunner : Runner :=
  { sampleRunner with
    Spec := { sampleRunner.Spec with
      DockerEnabled := some false
      Env := [{ Name := "DOCKER_HOST", Value := "tcp://localhost:2376" }]
      Volumes := [{ Name := "work", VolumeSource := .EmptyDir }] } }

/-! ## Reader lemmas -/

section Readers

variable (a : Action) (s t : List Action)

@[simp]
theorem podDeletes_nil : podDeletes [] = [] := rfl

@[simp]
theorem podDeletes_cons : podDeletes (a :: t) = a.asDelete.toList ++ podDeletes t := by
  cases a <;> simp [podDeletes]

@[simp]
theorem podDeletes_append : podDeletes (s ++ t) = podDeletes s ++ podDeletes t := by
  simp [podDeletes]

@[simp]
theorem podCreates_nil : podCreates [] = [] := rfl

@[simp]
theorem podCreates_cons : podCreates (a :: t) = a.asCreate.toList ++ podCreates t := by
  cases a <;> simp [podCreates]

@[simp]
theorem podCreates_append : podCreates (s ++ t) = podCreates s ++ podCreates t := by
  simp [podCreates]

@[simp]
theorem busyQueries_nil : busyQueries [] = [] := rfl

@[simp]
theorem busyQueries_cons : busyQueries (a :: t) = a.asBusyQuery.toList ++ busyQueries t := by
  cases a <;> simp [busyQueries]

@[simp]
theorem busyQueries_append : busyQueries (s ++ t) = busyQueries s ++ busyQueries t := by
  simp [busyQueries]

@[simp]
theorem removals_nil : removals [] = [] := rfl

@[simp]
theorem removals_cons : removals (a :: t) = a.asRemoval.toList ++ removals t := by
  cases a <;> simp [removals]

@[simp]
theorem removals_append : removals (s ++ t) = removals s ++ removals t := by
  simp [removals]

@[simp]
theorem runnerWrites_nil : runnerWrites [] = [] := rfl

@[simp]
theorem runnerWrites_cons :
    runnerWrites (a :: t) = (if a.isRunnerWrite then [a] else []) ++ runnerWrites t := by
  cases a <;> simp [runnerWrites]

@[simp]
theorem runnerWrites_append : runnerWrites (s ++ t) = runnerWrites s ++ runnerWrites t := by
  simp [runnerWrites]

@[simp]
theorem serviceCalls_nil : serviceCalls [] = [] := rfl

@[simp]
theorem serviceCalls_cons :
    serviceCalls (a :: t) = (if a.isServiceCall then [a] else []) ++ serviceCalls t := by
  cases a <;> simp [serviceCalls]

@[simp]
theorem serviceCalls_append : serviceCalls (s ++ t) = serviceCalls s ++ serviceCalls t := by
  simp [serviceCalls]

@[simp]
theorem tokenUpdates_nil : tokenUpdates [] = [] := rfl

@[simp]
theorem tokenUpdates_cons : tokenUpdates (a :: t) = a.asTokenUpdate.toList ++ tokenUpdates t := by
  cases a <;> simp [tokenUpdates]

@[simp]
theorem tokenUpdates_append : tokenUpdates (s ++ t) = tokenUpdates s ++ tokenUpdates t := by
  simp [tokenUpdates]

end Readers

/-! ## Loops and clocks -/

theorem Time.Sub_pos (t u : Int) : (0 : Int) < Time.Sub t u ↔ u < t := by
  have h : Time.Sub t u = if t - u > 9223372036854775807 then (9223372036854775807 : Int)
      else if t - u < -9223372036854775808 then -9223372036854775808 else t - u := rfl
  rw [h]
  split_ifs <;> omega

theorem unregisterLoop_eq (name : String) (runners : List GitHubRunner) :
    unregisterLoop name runners =
      match runners.find? (fun g => g.GetName == name) with
      | none => .ok 0
      | some g => if g.GetBusy then .error (Errorf "runner is busy") else .ok g.GetID := by
  induction runners with
  | nil => rfl
  | cons g rest ih =>
    by_cases hn : g.GetName = name
    · simp [unregisterLoop, hn]
    · simp [unregisterLoop, hn, ih]

theorem addFinalizerLoop_eq (fs : List String) (b : Bool) :
    addFinalizerLoop fs b = (b || decide (finalizerName ∈ fs)) := by
  induction fs generalizing b with
  | nil => simp [addFinalizerLoop]
  | cons f fs ih =>
    by_cases hf : f = finalizerName
    · simp [addFinalizerLoop, ih, hf]
    · have hf2 : ¬ finalizerName = f := fun h => hf h.symm
      simp [addFinalizerLoop, ih, hf, hf2]

theorem addFinalizer_eq (fs : List String) :
    addFinalizer fs =
      if finalizerName ∈ fs then (fs, false) else (fs ++ [finalizerName], true) := by
  simp [addFinalizer, addFinalizerLoop_eq]

theorem removeFinalizerLoop_eq (fs acc : List String) (b : Bool) :
    removeFinalizerLoop fs (acc, b) =
      (acc ++ fs.filter (fun f => f != finalizerName), b || decide (finalizerName ∈ fs)) := by
  induction fs generalizing acc b with
  | nil => simp [removeFinalizerLoop]
  | cons f fs ih =>
    by_cases hf : f = finalizerName
    · simp [removeFinalizerLoop, ih, hf]
    · have hf2 : ¬ finalizerName = f := fun h => hf h.symm
      simp [removeFinalizerLoop, ih, hf, hf2]

theorem removeFinalizer_eq (fs : List String) :
    removeFinalizer fs = (fs.filter (fun f => f != finalizerName), decide (finalizerName ∈ fs)) := by
  simp [removeFinalizer, removeFinalizerLoop_eq]

/-! ## Stage lemmas -/

section Stages

variable (r : RunnerReconciler) (w : World) (runner : Runner) (pod np : Pod) (trace : List Action)

theorem updateRegistrationToken_reads :
    podDeletes (updateRegistrationToken w runner).1 = [] ∧
    podCreates (updateRegistrationToken w runner).1 = [] ∧
    busyQueries (updateRegistrationToken w runner).1 = [] := by
  unfold updateRegistrationToken
  cases hr : w.isRegisterable <;> cases hg : w.getRegistrationToken <;>
    cases hs : w.statusUpdate <;> simp

theorem updateRegistrationToken_idle (h : (updateRegistrationToken w runner).2 = (false, none)) :
    w.isRegisterable = true ∧ updateRegistrationToken w runner = ([], false, none) := by
  unfold updateRegistrationToken at h ⊢
  cases hr : w.isRegisterable
  · exfalso
    cases hg : w.getRegistrationToken <;> cases hs : w.statusUpdate <;> simp [hr, hg, hs] at h
  · simp

theorem unregisterRunner_reads (enterprise org repo name : String) :
    podDeletes (unregisterRunner w enterprise org repo name).1 = [] ∧
    podCreates (unregisterRunner w enterprise org repo name).1 = [] ∧
    busyQueries (unregisterRunner w enterprise org repo name).1 = [] := by
  unfold unregisterRunner
  cases hl : w.listRunners with
  | error e => simp
  | ok runners =>
    cases hu : unregisterLoop name runners <;> cases hr : w.removeRunner <;> simp [hu] <;>
      split_ifs <;> simp

/-- The end of a pass that restarts: one ordinary `Delete` of the pod, an event
when it succeeds, an empty result and the error of the `Delete`. -/
theorem finishLivePod_restart (d : Duration) :
    finishLivePod w runner pod np trace true d =
      ⟨trace ++ .Delete pod none ::
          (match w.delete with
           | none => [.Event EventTypeNormal "PodDeleted" ("Deleted pod '" ++ np.Name ++ "'")]
           | some _ => []),
        {}, w.delete⟩ := by
  unfold finishLivePod
  cases w.delete <;> simp

/-- The end of a pass that does not restart issues no pod call and no query. -/
theorem finishLivePod_keep (d : Duration) :
    podDeletes (finishLivePod w runner pod np trace false d).trace = podDeletes trace ∧
    podCreates (finishLivePod w runner pod np trace false d).trace = podCreates trace ∧
    busyQueries (finishLivePod w runner pod np trace false d).trace = busyQueries trace := by
  unfold finishLivePod
  cases hs : w.statusPatch <;> simp <;> split_ifs <;> simp

theorem finishLivePod_queries (restart : Bool) (d : Duration) :
    busyQueries (finishLivePod w runner pod np trace restart d).trace = busyQueries trace := by
  cases restart
  · exact (finishLivePod_keep w runner pod np trace d).2.2
  · rw [finishLivePod_restart]
    cases w.delete <;> simp

theorem reconcileNoPod_queries : busyQueries (reconcileNoPod r w runner).trace = [] := by
  have hu := (updateRegistrationToken_reads w runner).2.2
  unfold reconcileNoPod
  generalize updateRegistrationToken w runner = u at hu ⊢
  rcases u with ⟨t, b, e⟩
  generalize newPod r runner w.setControllerReference = q
  rcases q with ⟨p, e2⟩
  simp only [] at hu
  cases e <;> cases b <;> cases e2 <;> cases hc : w.create <;> simp [hu]
  split_ifs <;> simp [hu]

theorem reconcileTerminatingPod_queries (t : Time) :
    busyQueries (reconcileTerminatingPod w pod t).trace = [] := by
  unfold reconcileTerminatingPod
  cases hd : w.delete <;> simp <;> split_ifs <;> simp

theorem reconcileDeletion_queries : busyQueries (reconcileDeletion w runner).trace = [] := by
  have hu := (unregisterRunner_reads w runner.Spec.Enterprise runner.Spec.Organization
    runner.Spec.Repository runner.Name).2.2
  unfold reconcileDeletion
  generalize unregisterRunner w runner.Spec.Enterprise runner.Spec.Organization
    runner.Spec.Repository runner.Name = u at hu ⊢
  rcases u with ⟨t, b, e⟩
  simp only [] at hu
  cases e <;> cases hp : w.patch <;> simp [hu] <;> split_ifs <;> simp [hu]

theorem newPod_err (scr : Option GoError) : (newPod r runner scr).2 = scr := by
  cases scr <;> rfl

theorem reconcileLivePod_query (h : busyQueries (reconcileLivePod r w runner pod).trace ≠ []) :
    podCompleted pod = false ∧ w.isRegisterable = true ∧ w.setControllerReference = none ∧
    registrationCheckDeferred w runner = false := by
  have hu := (updateRegistrationToken_reads w runner).2.2
  have hi := updateRegistrationToken_idle w runner
  have hn := newPod_err r runner w.setControllerReference
  unfold reconcileLivePod at h
  generalize updateRegistrationToken w runner = u at hu hi h
  rcases u with ⟨t, b, e⟩
  generalize newPod r runner w.setControllerReference = q at hn h
  rcases q with ⟨p, e2⟩
  simp only [] at hu hn
  subst hn
  cases e with
  | some e => simp [hu] at h
  | none =>
    cases b with
    | true => simp [hu] at h
    | false =>
      obtain ⟨hreg, ht⟩ := hi rfl
      cases hs : w.setControllerReference with
      | some e => simp [hs, hu] at h
      | none =>
        cases hc : podCompleted pod with
        | true => simp [hs, hc, hu, finishLivePod_queries] at h
        | false =>
          refine ⟨rfl, hreg, rfl, ?_⟩
          cases hd : registrationCheckDeferred w runner with
          | false => rfl
          | true => simp [hs, hc, hu, checkRegistration, hd] at h

theorem reconcileLivePod_check (hc : podCompleted pod = false) (hr : w.isRegisterable = true)
    (hs : w.setControllerReference = none) :
    reconcileLivePod r w runner pod
      = checkRegistration w runner pod (newPod r runner w.setControllerReference).1 [] := by
  have hn := newPod_err r runner w.setControllerReference
  unfold reconcileLivePod
  generalize newPod r runner w.setControllerReference = q at hn ⊢
  rcases q with ⟨p, e2⟩
  simp only [hs] at hn
  subst hn
  simp [updateRegistrationToken, hr, hc]

theorem Reconcile_query (h : busyQueries (Reconcile r w).trace ≠ []) :
    ∃ runner pod, ReachesCheck r w runner pod := by
  unfold Reconcile at h
  cases hg : w.getRunner with
  | error e => simp [hg] at h
  | ok runner =>
    cases hv : w.validate with
    | some e => simp [hg, hv] at h
    | none =>
      cases hz : IsZero runner.DeletionTimestamp with
      | false => simp [hg, hv, hz, reconcileDeletion_queries] at h
      | true =>
        cases ha : (addFinalizer runner.Finalizers).2 with
        | true =>
          exfalso
          cases hu : w.update <;> simp [hg, hv, hz, ha, hu] at h
        | false =>
          simp only [hg, hv, hz, ha] at h
          unfold reconcilePod at h
          cases hp : w.getPod with
          | error e =>
            exfalso
            cases he : e.apiNotFound <;> simp [hp, he, reconcileNoPod_queries] at h
          | ok pod =>
            cases hl : IsZero pod.DeletionTimestamp with
            | false => simp [hp, hl, reconcileTerminatingPod_queries] at h
            | true =>
              simp only [hp, hl] at h
              obtain ⟨h1, h2, h3, h4⟩ := reconcileLivePod_query r w runner pod (by simpa using h)
              exact ⟨runner, pod, hg, hv, hz, ha, hp, hl, h1, h2, h3, h4⟩

theorem Reconcile_check (hc : ReachesCheck r w runner pod) :
    Reconcile r w = checkRegistration w runner pod (newPod r runner w.setControllerReference).1 [] := by
  rw [← reconcileLivePod_check r w runner pod hc.notCompleted hc.registerable hc.built]
  simp [Reconcile, reconcilePod, hc.getRunner, hc.valid, hc.notDeleted, hc.hasFinalizer, hc.getPod,
    hc.live]

theorem Reconcile_deleting (hg : w.getRunner = .ok runner) (hv : w.validate = none)
    (hz : IsZero runner.DeletionTimestamp = false) :
    Reconcile r w = reconcileDeletion w runner := by
  simp [Reconcile, hg, hv, hz]

theorem Reconcile_ready (hg : w.getRunner = .ok runner) (hv : w.validate = none)
    (hz : IsZero runner.DeletionTimestamp = true) (hf : finalizerName ∈ runner.Finalizers) :
    Reconcile r w = reconcilePod r w runner := by
  simp [Reconcile, hg, hv, hz, addFinalizer_eq, hf]

theorem reconcilePod_terminating (dt : Time) (hp : w.getPod = .ok pod)
    (hdt : pod.DeletionTimestamp = some dt) (hnz : IsZero pod.DeletionTimestamp = false) :
    reconcilePod r w runner = reconcileTerminatingPod w pod dt := by
  have hnz2 : IsZero (some dt) = false := hdt ▸ hnz
  simp [reconcilePod, hp, hdt, hnz2]

/-- A pass on a Runner that is not registerable ends with the token manager. -/
theorem reconcileNoPod_issue (hr : w.isRegisterable = false) :
    reconcileNoPod r w runner = issueToken w runner := by
  unfold reconcileNoPod issueToken updateRegistrationToken
  cases hg : w.getRegistrationToken <;> cases hs : w.statusUpdate <;> simp [hr]

theorem reconcileLivePod_issue (hr : w.isRegisterable = false) :
    reconcileLivePod r w runner pod = issueToken w runner := by
  unfold reconcileLivePod issueToken updateRegistrationToken
  cases hg : w.getRegistrationToken <;> cases hs : w.statusUpdate <;> simp [hr]

theorem issueToken_reads :
    podCreates (issueToken w runner).trace = [] ∧
    (tokenUpdates (issueToken w runner).trace ≠ [] → w.statusUpdate = none →
      (issueToken w runner).result = { Requeue := true } ∧ (issueToken w runner).err = none) := by
  unfold issueToken updateRegistrationToken
  cases hr : w.isRegisterable <;> cases hg : w.getRegistrationToken <;>
    cases hs : w.statusUpdate <;> simp

/-- The pass on a missing pod and a registerable Runner: build the pod, or
fail to, and create it. -/
theorem reconcileNoPod_registerable (hr : w.isRegisterable = true) :
    reconcileNoPod r w runner =
      match w.setControllerReference with
      | some err => ⟨[], {}, some err⟩
      | none =>
        match w.create with
        | some err =>
          if err.apiAlreadyExists then
            ⟨[.Create (newPod r runner w.setControllerReference).1],
              { RequeueAfter := 10 * Second }, none⟩
          else ⟨[.Create (newPod r runner w.setControllerReference).1], {}, some err⟩
        | none =>
          ⟨[.Create (newPod r runner w.setControllerReference).1,
              .Event EventTypeNormal "PodCreated"
                ("Created pod '" ++ (newPod r runner w.setControllerReference).1.Name ++ "'")],
            {}, none⟩ := by
  have hn := newPod_err r runner w.setControllerReference
  unfold reconcileNoPod
  generalize newPod r runner w.setControllerReference = q at hn ⊢
  rcases q with ⟨p, e2⟩
  simp only [] at hn
  subst hn
  cases hs : w.setControllerReference <;> simp [updateRegistrationToken, hr, hs]

theorem checkRegistration_reads :
    podCreates (checkRegistration w runner pod np trace).trace = podCreates trace ∧
    tokenUpdates (checkRegistration w runner pod np trace).trace = tokenUpdates trace := by
  have hf : ∀ t restart d,
      podCreates (finishLivePod w runner pod np t restart d).trace = podCreates t ∧
      tokenUpdates (finishLivePod w runner pod np t restart d).trace = tokenUpdates t := by
    intro t restart d
    unfold finishLivePod
    cases hs : w.statusPatch <;> cases hd : w.delete <;> cases restart <;> simp <;>
      split_ifs <;> simp
  unfold checkRegistration decideRestart
  cases hd : registrationCheckDeferred w runner with
  | true => simp
  | false =>
    cases hb : w.isRunnerBusy.2 with
    | none => simp [hf]
    | some e => simp; split_ifs <;> simp [hf]

theorem reconcileLivePod_reads :
    podCreates (reconcileLivePod r w runner pod).trace = [] ∧
    (tokenUpdates (reconcileLivePod r w runner pod).trace ≠ [] → w.statusUpdate = none →
      (reconcileLivePod r w runner pod).result = { Requeue := true } ∧
      (reconcileLivePod r w runner pod).err = none) := by
  cases hr : w.isRegisterable with
  | false =>
    rw [reconcileLivePod_issue r w runner pod hr]
    exact issueToken_reads w runner
  | true =>
    have hn := newPod_err r runner w.setControllerReference
    unfold reconcileLivePod
    generalize newPod r runner w.setControllerReference = q at hn ⊢
    rcases q with ⟨p, e2⟩
    simp only [] at hn
    subst hn
    cases hs : w.setControllerReference with
    | some e => simp [updateRegistrationToken, hr, hs]
    | none =>
      cases hc : podCompleted pod with
      | false => simp [updateRegistrationToken, hr, hs, hc, checkRegistration_reads]
      | true =>
        simp [updateRegistrationToken, hr, hs, hc, finishLivePod_restart]
        cases hd : w.delete <;> simp

theorem reconcileTerminatingPod_reads (t : Time) :
    podCreates (reconcileTerminatingPod w pod t).trace = [] ∧
    tokenUpdates (reconcileTerminatingPod w pod t).trace = [] := by
  unfold reconcileTerminatingPod
  cases hd : w.delete <;> simp <;> split_ifs <;> simp

theorem unregisterRunner_tokenUpdates (enterprise org repo name : String) :
    tokenUpdates (unregisterRunner w enterprise org repo name).1 = [] := by
  unfold unregisterRunner
  cases hl : w.listRunners with
  | error e => simp
  | ok runners =>
    cases hu : unregisterLoop name runners <;> cases hr : w.removeRunner <;> simp [hu] <;>
      split_ifs <;> simp

theorem reconcileDeletion_reads :
    podCreates (reconcileDeletion w runner).trace = [] ∧
    tokenUpdates (reconcileDeletion w runner).trace = [] := by
  have hu := (unregisterRunner_reads w runner.Spec.Enterprise runner.Spec.Organization
    runner.Spec.Repository runner.Name).2.1
  have hv := unregisterRunner_tokenUpdates w runner.Spec.Enterprise runner.Spec.Organization
    runner.Spec.Repository runner.Name
  unfold reconcileDeletion
  generalize unregisterRunner w runner.Spec.Enterprise runner.Spec.Organization
    runner.Spec.Repository runner.Name = u at hu hv ⊢
  rcases u with ⟨t, b, e⟩
  simp only [] at hu hv
  cases e <;> cases hp : w.patch <;> simp [hu, hv] <;> split_ifs <;> simp [hu, hv]

theorem reconcileNoPod_creates :
    podCreates (reconcileNoPod r w runner).trace =
      if w.isRegisterable = true ∧ w.setControllerReference = none then
        [(newPod r runner w.setControllerReference).1]
      else [] := by
  cases hr : w.isRegisterable with
  | false => simp [reconcileNoPod_issue r w runner hr, (issueToken_reads w runner).1]
  | true =>
    rw [reconcileNoPod_registerable r w runner hr]
    cases hs : w.setControllerReference with
    | some e => simp
    | none =>
      cases hc : w.create with
      | none => simp
      | some e => cases he : e.apiAlreadyExists <;> simp [he]

theorem reconcileNoPod_tokenUpdates
    (h : tokenUpdates (reconcileNoPod r w runner).trace ≠ []) (hs : w.statusUpdate = none) :
    (reconcileNoPod r w runner).result = { Requeue := true } ∧
    (reconcileNoPod r w runner).err = none := by
  cases hr : w.isRegisterable with
  | false =>
    rw [reconcileNoPod_issue r w runner hr] at h ⊢
    exact (issueToken_reads w runner).2 h hs
  | true =>
    exfalso
    rw [reconcileNoPod_registerable r w runner hr] at h
    revert h
    cases hs : w.setControllerReference with
    | some e => simp
    | none =>
      cases hc : w.create with
      | none => simp
      | some e => cases he : e.apiAlreadyExists <;> simp [he]

theorem reconcilePod_live (hp : w.getPod = .ok pod) (hl : IsZero pod.DeletionTimestamp = true) :
    reconcilePod r w runner = reconcileLivePod r w runner pod := by
  simp [reconcilePod, hp, hl]

theorem reconcilePod_dying (hp : w.getPod = .ok pod) (hl : IsZero pod.DeletionTimestamp = false) :
    reconcilePod r w runner = reconcileTerminatingPod w pod (pod.DeletionTimestamp.getD 0) := by
  simp [reconcilePod, hp, hl]

theorem reconcilePod_missing (e : GoError) (hp : w.getPod = .error e)
    (he : e.apiNotFound = true) :
    reconcilePod r w runner = reconcileNoPod r w runner := by
  simp [reconcilePod, hp, he]

theorem reconcilePod_unread (e : GoError) (hp : w.getPod = .error e)
    (he : e.apiNotFound = false) :
    reconcilePod r w runner = ⟨[], {}, some e⟩ := by
  simp [reconcilePod, hp, he]

/-- Where the pod creations and the token updates of a pass come from: only
the branch of a missing pod creates, and a token update that succeeds ends the
pass with a requeue. -/
theorem Reconcile_creates :
    (∀ runner, w.getRunner = .ok runner →
      podCreates (Reconcile r w).trace =
        if w.validate = none ∧ IsZero runner.DeletionTimestamp = true ∧
            finalizerName ∈ runner.Finalizers ∧ podMissing w = true ∧
            w.isRegisterable = true ∧ w.setControllerReference = none then
          [(newPod r runner w.setControllerReference).1]
        else []) ∧
    ((∀ runner, w.getRunner ≠ .ok runner) → podCreates (Reconcile r w).trace = []) ∧
    (tokenUpdates (Reconcile r w).trace ≠ [] → w.statusUpdate = none →
      podCreates (Reconcile r w).trace = [] ∧
      (Reconcile r w).result = { Requeue := true } ∧ (Reconcile r w).err = none) := by
  cases hg : w.getRunner with
  | error e => simp [Reconcile, hg]
  | ok runner =>
    have h2 : ¬ ∀ runner2 : Runner, ¬ (Except.ok runner : Except GoError Runner) = .ok runner2 :=
      fun h => h runner rfl
    cases hv : w.validate with
    | some e => simp [Reconcile, hg, hv]
    | none =>
      cases hz : IsZero runner.DeletionTimestamp with
      | false =>
        simp [Reconcile_deleting r w runner hg hv hz, reconcileDeletion_reads, hz]
      | true =>
        by_cases hf : finalizerName ∈ runner.Finalizers
        · rw [Reconcile_ready r w runner hg hv hz hf]
          cases hp : w.getPod with
          | ok pod =>
            cases hl : IsZero pod.DeletionTimestamp with
            | false =>
              simp [reconcilePod_dying r w runner pod hp hl, reconcileTerminatingPod_reads,
                podMissing, hp]
            | true =>
              have hlive := reconcileLivePod_reads r w runner pod
              rw [reconcilePod_live r w runner pod hp hl]
              refine ⟨?_, ?_, ?_⟩
              · intro runner2 _; simp [hlive.1, podMissing, hp]
              · intro _; exact hlive.1
              · intro ht hs; exact ⟨hlive.1, hlive.2 ht hs⟩
          | error e =>
            cases he : e.apiNotFound with
            | false => simp [reconcilePod_unread r w runner e hp he, podMissing, hp, he]
            | true =>
              have hc := reconcileNoPod_creates r w runner
              rw [reconcilePod_missing r w runner e hp he]
              refine ⟨?_, ?_, ?_⟩
              · intro runner2 h2
                injection h2 with h2
                subst h2
                rw [hc]
                simp [hz, hf, podMissing, hp, he]
              · intro h; exact absurd h h2
              · intro ht hs
                have := reconcileNoPod_tokenUpdates r w runner ht hs
                refine ⟨?_, this⟩
                rw [hc]
                cases hr : w.isRegisterable with
                | false => simp
                | true =>
                  exfalso
                  rw [reconcileNoPod_registerable r w runner hr] at ht
                  revert ht
                  cases hs : w.setControllerReference with
                  | some e => simp
                  | none =>
                    cases hc : w.create with
                    | none => simp
                    | some e => cases he : e.apiAlreadyExists <;> simp [he]
        · cases hu : w.update <;> simp [Reconcile, hg, hv, hz, addFinalizer_eq, hf, hu]

/-- The hash label of the pod `newPod` builds is the digest of the labels
without the hash key, the annotations, the spec and the base URL. -/
theorem newPod_hash (scr : Option GoError) :
    (newPod r runner scr).1.Labels.get LabelKeyPodTemplateHash = podTemplateHash r runner := by
  cases scr <;> simp [newPod, StringMap.get, StringMap.set, List.lookup]

theorem newPodEnv_token :
    (newPodEnv r runner).find? (fun e => e.Name == "RUNNER_TOKEN")
      = some ⟨"RUNNER_TOKEN", runner.Status.Registration.Token⟩ := by
  simp [newPodEnv, List.find?]

theorem newPod_containers (scr : Option GoError) :
    (newPod r runner scr).1.Spec.Containers = newPodContainers r runner := by
  cases scr <;> rfl

/-- The built-in containers start with the `runner` container, whose
environment starts with the standard one. -/
theorem builtinContainers_head :
    ∃ c cs rest, builtinContainers r runner = c :: cs ∧ c.Name = containerName ∧
      c.Env = newPodEnv r runner ++ rest := by
  unfold builtinContainers
  cases hm : runner.Spec.DockerMTU <;> simp <;> split_ifs <;> simp

/-- Without a container override the first container of the pod is the
built-in `runner` container, whose environment starts with the standard one. -/
theorem newPodContainers_builtin (h : runner.Spec.Containers = []) :
    ∃ c cs rest, newPodContainers r runner = c :: cs ∧ c.Name = containerName ∧
      c.Env = newPodEnv r runner ++ rest := by
  obtain ⟨c, cs, rest, h1, h2, h3⟩ := builtinContainers_head r runner
  unfold newPodContainers
  simp only [h, h1, List.length_nil, bne_self_eq_false, Bool.false_eq_true, if_false]
  split_ifs <;> simp [modifyFirst, h2, h3]

/-- With a container override, every override container named `runner`
appears in the pod with the standard environment appended. -/
theorem newPodContainers_override (c : Container) (hc : c ∈ runner.Spec.Containers)
    (hn : c.Name = containerName) :
    ∃ c2 ∈ newPodContainers r runner, c2.Name = containerName ∧
      c2.Env = c.Env ++ newPodEnv r runner := by
  have hne : runner.Spec.Containers.length ≠ 0 := by
    intro h0
    rw [List.length_eq_zero] at h0
    rw [h0] at hc
    exact absurd hc (List.not_mem_nil c)
  have hmem : ({ c with Env := c.Env ++ newPodEnv r runner } : Container) ∈
      runner.Spec.Containers.map (fun c =>
        if c.Name == containerName then { c with Env := c.Env ++ newPodEnv r runner } else c) :=
    List.mem_map.mpr ⟨c, hc, by simp [hn]⟩
  have hfirst : ∀ (f : Container → Container) (l : List Container) (x : Container),
      (∀ y, (f y).Name = y.Name ∧ (f y).Env = y.Env) → x ∈ l →
      ∃ x2 ∈ modifyFirst f l, x2.Name = x.Name ∧ x2.Env = x.Env := by
    intro f l x hf hx
    cases l with
    | nil => exact absurd hx (List.not_mem_nil x)
    | cons y ys =>
      rcases List.mem_cons.mp hx with rfl | hx
      · exact ⟨f x, List.mem_cons_self _ _, hf x⟩
      · exact ⟨x, List.mem_cons_of_mem _ hx, rfl, rfl⟩
  unfold newPodContainers
  simp only [bne_iff_ne, ne_eq, hne, not_false_eq_true, if_true]
  by_cases hv : runner.Spec.VolumeMounts.length = 0
  · by_cases hs : runner.Spec.SidecarContainers.length = 0
    · simp only [hv, hs, not_true_eq_false, if_false]
      exact ⟨_, hmem, hn, rfl⟩
    · simp only [hv, hs, not_true_eq_false, not_false_eq_true, if_false, if_true]
      exact ⟨_, List.mem_append_left _ hmem, hn, rfl⟩
  · obtain ⟨x2, hx2, hx2n, hx2e⟩ := hfirst
      (fun c => { c with VolumeMounts := c.VolumeMounts ++ runner.Spec.VolumeMounts }) _ _
      (fun y => ⟨rfl, rfl⟩) hmem
    by_cases hs : runner.Spec.SidecarContainers.length = 0
    · simp only [hv, hs, not_true_eq_false, not_false_eq_true, if_false, if_true]
      exact ⟨x2, hx2, hx2n.trans hn, hx2e⟩
    · simp only [hv, hs, not_false_eq_true, if_true]
      exact ⟨x2, List.mem_append_left _ hx2, hx2n.trans hn, hx2e⟩

/-- The recheck delay is positive whatever the jitter is. -/
theorem recheckDelay_pos (n : Nat) : (0 : Int) < Minute + Jitter (10 * Second) n := by
  have hm : Minute = 60000000000 := by decide
  have hs : Second = 1000000000 := rfl
  unfold Jitter
  rw [hm, hs]
  show (0 : Int) < 60000000000 + (10 * 1000000000 + (n : Int))
  omega

/-- The end of a pass that keeps the pod and has a recheck scheduled: one
status patch that records the check time. -/
theorem finishLivePod_recheck (d : Duration) (hd : (0 : Int) < d) :
    finishLivePod w runner pod np trace false d =
      ⟨trace ++ [.StatusPatch { runner with
          Status := { runner.Status with LastRegistrationCheckTime := some w.nowPatch } }],
        (match w.statusPatch with
         | none => { RequeueAfter := d }
         | some _ => {}),
        w.statusPatch⟩ := by
  unfold finishLivePod
  cases hs : w.statusPatch <;> simp [hd]

/-- The end of a pass that keeps the pod and has no recheck scheduled: the
status mirrors the pod when the phases differ, and nothing is written when
they are equal. -/
theorem finishLivePod_mirror :
    finishLivePod w runner pod np trace false 0 =
      if runner.Status.Phase != pod.Status.Phase then
        ⟨trace ++ [.StatusPatch { runner with
            Status := { runner.Status with
              Phase := pod.Status.Phase
              Reason := pod.Status.Reason
              Message := pod.Status.Message } }],
          {}, w.statusPatch⟩
      else ⟨trace, {}, none⟩ := by
  unfold finishLivePod
  cases hs : w.statusPatch <;> simp

theorem containerStatusLoop_eq (l : List ContainerStatus) (b : Bool) :
    containerStatusLoop l b =
      (b || l.any (fun s => s.Name == containerName &&
        (match s.Terminated with
         | some t => t.ExitCode == 0
         | none => false))) := by
  induction l generalizing b with
  | nil => simp [containerStatusLoop]
  | cons s l ih =>
    by_cases hn : s.Name = containerName
    · cases ht : s.Terminated with
      | none => simp [containerStatusLoop, hn, ht, ih]
      | some t =>
        by_cases he : t.ExitCode = 0
        · simp [containerStatusLoop, hn, ht, he, ih]
        · have he2 : (t.ExitCode == 0) = false := by simpa using he
          simp [containerStatusLoop, hn, ht, he, he2, ih]
    · have hn2 : (s.Name == containerName) = false := by simpa using hn
      simp [containerStatusLoop, hn, hn2, ih]

/-- The pod counts as completed when its phase is `Succeeded`, or its phase is
`Running` and a `runner` container has terminated with exit code 0. -/
theorem podCompleted_of
    (h : pod.Status.Phase = PodSucceeded ∨
      (pod.Status.Phase = PodRunning ∧
        ∃ s ∈ pod.Status.ContainerStatuses, s.Name = containerName ∧
          ∃ t, s.Terminated = some t ∧ t.ExitCode = 0)) :
    podCompleted pod = true := by
  unfold podCompleted
  rcases h with h | ⟨h, s, hs, hn, t, ht, he⟩
  · have : ¬ PodSucceeded = PodRunning := by decide
    simp [h, this]
  · simp only [h, containerStatusLoop_eq]
    simp only [beq_self_eq_true, if_true, Bool.or_eq_true, List.any_eq_true]
    exact Or.inr ⟨s, hs, by simp [hn, ht, he]⟩

/-- A pass on a completed pod of a registerable Runner skips the registration
check and goes to the restart. -/
theorem reconcileLivePod_completed (hc : podCompleted pod = true) (hr : w.isRegisterable = true)
    (hs : w.setControllerReference = none) :
    reconcileLivePod r w runner pod
      = finishLivePod w runner pod (newPod r runner w.setControllerReference).1 [] true 0 := by
  have hn := newPod_err r runner w.setControllerReference
  unfold reconcileLivePod
  generalize newPod r runner w.setControllerReference = q at hn ⊢
  rcases q with ⟨p, e2⟩
  simp only [hs] at hn
  subst hn
  simp [updateRegistrationToken, hr, hc]

theorem newPodEnv_standard :
    (⟨"RUNNER_NAME", runner.Name⟩ : EnvVar) ∈ newPodEnv r runner ∧
    (⟨"RUNNER_ORG", runner.Spec.Organization⟩ : EnvVar) ∈ newPodEnv r runner ∧
    (⟨"RUNNER_REPO", runner.Spec.Repository⟩ : EnvVar) ∈ newPodEnv r runner := by
  simp [newPodEnv]

/-- With a container override whose first container is named `runner`, the
first container of the pod is that container with the standard environment
appended. -/
theorem newPodContainers_override_head (c : Container) (cs : List Container)
    (h : runner.Spec.Containers = c :: cs) (hn : c.Name = containerName) :
    ∃ c2 cs2, newPodContainers r runner = c2 :: cs2 ∧ c2.Name = containerName ∧
      c2.Env = c.Env ++ newPodEnv r runner := by
  have hlen : (cs.length + 1 != 0) = true := by simp
  unfold newPodContainers
  simp only [h, List.length_cons, List.map_cons, hn, beq_self_eq_true, if_true, hlen]
  split_ifs <;> simp [modifyFirst, hn]

theorem finishLivePod_deletes (restart : Bool) (d : Duration) :
    (podDeletes (finishLivePod w runner pod np trace restart d).trace).length
      ≤ (podDeletes trace).length + 1 := by
  cases restart with
  | false => rw [(finishLivePod_keep w runner pod np trace d).1]; omega
  | true =>
    rw [finishLivePod_restart]
    cases w.delete <;> simp

theorem checkRegistration_deletes :
    (podDeletes (checkRegistration w runner pod np trace).trace).length
      ≤ (podDeletes trace).length + 1 := by
  have hf : ∀ (nf off : Bool),
      (podDeletes (decideRestart w runner pod np
        (trace ++ [.IsRunnerBusy runner.Spec.Enterprise runner.Spec.Organization
          runner.Spec.Repository runner.Name]) nf off).trace).length
        ≤ (podDeletes trace).length + 1 := by
    intro nf off
    unfold decideRestart
    have h := finishLivePod_deletes w runner pod np
      (trace ++ [.IsRunnerBusy runner.Spec.Enterprise runner.Spec.Organization
        runner.Spec.Repository runner.Name])
    simp only [podDeletes_append, podDeletes_cons, Action.asDelete, Option.toList,
      podDeletes_nil, List.append_nil] at h
    exact h _ _
  unfold checkRegistration
  cases hd : registrationCheckDeferred w runner with
  | true => simp
  | false =>
    cases hb : w.isRunnerBusy.2 with
    | none => exact hf false false
    | some e =>
      simp only [Bool.false_eq_true, if_false]
      split_ifs
      · exact hf true false
      · exact hf false true
      · simp
      · simp

theorem reconcileLivePod_deletes :
    (podDeletes (reconcileLivePod r w runner pod).trace).length ≤ 1 := by
  cases hr : w.isRegisterable with
  | false =>
    rw [reconcileLivePod_issue r w runner pod hr]
    unfold issueToken updateRegistrationToken
    cases hg : w.getRegistrationToken <;> cases hs : w.statusUpdate <;> simp [hr]
  | true =>
    have hn := newPod_err r runner w.setControllerReference
    unfold reconcileLivePod
    generalize newPod r runner w.setControllerReference = q at hn ⊢
    rcases q with ⟨p, e2⟩
    simp only [] at hn
    subst hn
    cases hs : w.setControllerReference with
    | some e => simp [updateRegistrationToken, hr, hs]
    | none =>
      cases hc : podCompleted pod with
      | false =>
        simpa [updateRegistrationToken, hr, hs, hc] using
          checkRegistration_deletes w runner pod p []
      | true =>
        simpa [updateRegistrationToken, hr, hs, hc] using
          finishLivePod_deletes w runner pod p [] true 0

theorem reconcileTerminatingPod_deletes (t : Time) :
    (podDeletes (reconcileTerminatingPod w pod t).trace).length ≤ 1 := by
  unfold reconcileTerminatingPod
  cases hd : w.delete <;> simp <;> split_ifs <;> simp

theorem reconcileNoPod_deletes : podDeletes (reconcileNoPod r w runner).trace = [] := by
  cases hr : w.isRegisterable with
  | false =>
    rw [reconcileNoPod_issue r w runner hr]
    unfold issueToken updateRegistrationToken
    cases hg : w.getRegistrationToken <;> cases hs : w.statusUpdate <;> simp [hr]
  | true =>
    rw [reconcileNoPod_registerable r w runner hr]
    cases hs : w.setControllerReference with
    | some e => simp
    | none =>
      cases hc : w.create with
      | none => simp
      | some e => cases he : e.apiAlreadyExists <;> simp [he]

theorem reconcileDeletion_deletes : podDeletes (reconcileDeletion w runner).trace = [] := by
  have hu := (unregisterRunner_reads w runner.Spec.Enterprise runner.Spec.Organization
    runner.Spec.Repository runner.Name).1
  unfold reconcileDeletion
  generalize unregisterRunner w runner.Spec.Enterprise runner.Spec.Organization
    runner.Spec.Repository runner.Name = u at hu ⊢
  rcases u with ⟨t, b, e⟩
  simp only [] at hu
  cases e <;> cases hp : w.patch <;> simp [hu] <;> split_ifs <;> simp [hu]

theorem updateRegistrationToken_writes :
    ∀ a ∈ (updateRegistrationToken w runner).1, expectedWrite w runner a := by
  unfold updateRegistrationToken
  cases hr : w.isRegisterable with
  | true => simp
  | false =>
    cases hg : w.getRegistrationToken with
    | error e => simp [expectedWrite]
    | ok rt =>
      cases hs : w.statusUpdate <;> simp [expectedWrite] <;> exact ⟨rt, rfl, rfl⟩

theorem unregisterRunner_writes (enterprise org repo name : String) :
    ∀ a ∈ (unregisterRunner w enterprise org repo name).1, expectedWrite w runner a := by
  unfold unregisterRunner
  cases hl : w.listRunners with
  | error e => simp [expectedWrite]
  | ok runners =>
    cases hu : unregisterLoop name runners <;> cases hr : w.removeRunner <;>
      simp [hu, expectedWrite] <;> split_ifs <;> simp [expectedWrite]

theorem finishLivePod_writes (restart : Bool) (d : Duration)
    (ht : ∀ a ∈ trace, expectedWrite w runner a) :
    ∀ a ∈ (finishLivePod w runner pod np trace restart d).trace, expectedWrite w runner a := by
  intro a ha
  cases restart with
  | true =>
    rw [finishLivePod_restart] at ha
    cases hd : w.delete with
    | none =>
      simp [hd] at ha
      rcases ha with ha | ha | ha
      · exact ht a ha
      · subst ha; simp [expectedWrite]
      · subst ha; simp [expectedWrite]
    | some e =>
      simp [hd] at ha
      rcases ha with ha | ha
      · exact ht a ha
      · subst ha; simp [expectedWrite]
  | false =>
    by_cases hd : (0 : Int) < d
    · rw [finishLivePod_recheck w runner pod np trace d hd] at ha
      simp at ha
      rcases ha with ha | ha
      · exact ht a ha
      · subst ha; simp [expectedWrite]
    · have hd0 : finishLivePod w runner pod np trace false d
          = finishLivePod w runner pod np trace false 0 := by
        unfold finishLivePod
        have h0 : ¬ (0 : Int) < 0 := by decide
        simp [hd, h0]
      rw [hd0, finishLivePod_mirror] at ha
      split_ifs at ha
      · simp at ha
        rcases ha with ha | ha
        · exact ht a ha
        · subst ha
          simp only [expectedWrite]
          exact Or.inr ⟨pod, rfl⟩
      · exact ht a ha

theorem checkRegistration_writes (ht : ∀ a ∈ trace, expectedWrite w runner a) :
    ∀ a ∈ (checkRegistration w runner pod np trace).trace, expectedWrite w runner a := by
  have hq : ∀ a ∈ trace ++ [Action.IsRunnerBusy runner.Spec.Enterprise runner.Spec.Organization
      runner.Spec.Repository runner.Name], expectedWrite w runner a := by
    intro a ha
    rcases List.mem_append.mp ha with ha | ha
    · exact ht a ha
    · simp at ha; subst ha; simp [expectedWrite]
  have hf : ∀ nf off : Bool,
      ∀ a ∈ (decideRestart w runner pod np
        (trace ++ [.IsRunnerBusy runner.Spec.Enterprise runner.Spec.Organization
          runner.Spec.Repository runner.Name]) nf off).trace, expectedWrite w runner a := by
    intro nf off
    unfold decideRestart
    exact finishLivePod_writes w runner pod np _ _ _ hq
  unfold checkRegistration
  cases hd : registrationCheckDeferred w runner with
  | true => simpa using ht
  | false =>
    cases hb : w.isRunnerBusy.2 with
    | none => exact hf false false
    | some e =>
      simp only [Bool.false_eq_true, if_false]
      split_ifs
      · exact hf true false
      · exact hf false true
      · exact hq
      · exact hq

theorem issueToken_writes : ∀ a ∈ (issueToken w runner).trace, expectedWrite w runner a := by
  have hu := updateRegistrationToken_writes w runner
  unfold issueToken
  generalize updateRegistrationToken w runner = u at hu ⊢
  rcases u with ⟨t, b, e⟩
  cases e <;> cases b <;> exact hu

theorem reconcileLivePod_writes :
    ∀ a ∈ (reconcileLivePod r w runner pod).trace, expectedWrite w runner a := by
  cases hr : w.isRegisterable with
  | false =>
    rw [reconcileLivePod_issue r w runner pod hr]
    exact issueToken_writes w runner
  | true =>
    have hn := newPod_err r runner w.setControllerReference
    have hnil : ∀ a ∈ ([] : List Action), expectedWrite w runner a := by simp
    unfold reconcileLivePod
    generalize newPod r runner w.setControllerReference = q at hn ⊢
    rcases q with ⟨p, e2⟩
    simp only [] at hn
    subst hn
    cases hs : w.setControllerReference with
    | some e => simp [updateRegistrationToken, hr, hs]
    | none =>
      cases hc : podCompleted pod with
      | false =>
        simpa [updateRegistrationToken, hr, hs, hc] using
          checkRegistration_writes w runner pod p [] hnil
      | true =>
        simpa [updateRegistrationToken, hr, hs, hc] using
          finishLivePod_writes w runner pod p [] true 0 hnil

theorem reconcileNoPod_writes :
    ∀ a ∈ (reconcileNoPod r w runner).trace, expectedWrite w runner a := by
  cases hr : w.isRegisterable with
  | false =>
    rw [reconcileNoPod_issue r w runner hr]
    exact issueToken_writes w runner
  | true =>
    rw [reconcileNoPod_registerable r w runner hr]
    cases hs : w.setControllerReference with
    | some e => simp
    | none =>
      cases hc : w.create with
      | none => simp [expectedWrite]
      | some e => cases he : e.apiAlreadyExists <;> simp [he, expectedWrite]

theorem reconcileTerminatingPod_writes (t : Time) :
    ∀ a ∈ (reconcileTerminatingPod w pod t).trace, expectedWrite w runner a := by
  unfold reconcileTerminatingPod
  cases hd : w.delete <;> simp [expectedWrite] <;> split_ifs <;> simp [expectedWrite]

theorem reconcileDeletion_writes :
    ∀ a ∈ (reconcileDeletion w runner).trace, expectedWrite w runner a := by
  have hu := unregisterRunner_writes w runner runner.Spec.Enterprise runner.Spec.Organization
    runner.Spec.Repository runner.Name
  unfold reconcileDeletion
  generalize unregisterRunner w runner.Spec.Enterprise runner.Spec.Organization
    runner.Spec.Repository runner.Name = u at hu ⊢
  rcases u with ⟨t, b, e⟩
  simp only [] at hu
  rw [removeFinalizer_eq]
  intro a
  cases e <;> cases hp : w.patch <;> simp <;> split_ifs <;> simp <;>
    first
      | exact hu a
      | (intro ha; rcases ha with ha | ha
         · exact hu a ha
         · subst ha; simp [expectedWrite])
      | (intro ha; subst ha; simp [expectedWrite])

/-- Every call in the trace of a pass that has read `runner` has one of the
expected shapes. -/
theorem Reconcile_writes (hg : w.getRunner = .ok runner) :
    ∀ a ∈ (Reconcile r w).trace, expectedWrite w runner a := by
  cases hv : w.validate with
  | some e => simp [Reconcile, hg, hv]
  | none =>
    cases hz : IsZero runner.DeletionTimestamp with
    | false =>
      rw [Reconcile_deleting r w runner hg hv hz]
      exact reconcileDeletion_writes w runner
    | true =>
      by_cases hf : finalizerName ∈ runner.Finalizers
      · rw [Reconcile_ready r w runner hg hv hz hf]
        cases hp : w.getPod with
        | ok pod =>
          cases hl : IsZero pod.DeletionTimestamp with
          | false =>
            rw [reconcilePod_dying r w runner pod hp hl]
            exact reconcileTerminatingPod_writes w runner pod _
          | true =>
            rw [reconcilePod_live r w runner pod hp hl]
            exact reconcileLivePod_writes r w runner pod
        | error e =>
          cases he : e.apiNotFound with
          | false => simp [reconcilePod_unread r w runner e hp he]
          | true =>
            rw [reconcilePod_missing r w runner e hp he]
            exact reconcileNoPod_writes r w runner
      · cases hu : w.update <;>
          simp [Reconcile, hg, hv, hz, addFinalizer_eq, hf, hu, expectedWrite]

theorem issueToken_trace : (issueToken w runner).trace = (updateRegistrationToken w runner).1 := by
  unfold issueToken
  generalize updateRegistrationToken w runner = u
  rcases u with ⟨t, b, e⟩
  cases e <;> cases b <;> rfl

theorem reconcileLivePod_registerable_tokenUpdates (hr : w.isRegisterable = true) :
    tokenUpdates (reconcileLivePod r w runner pod).trace = [] := by
  have hn := newPod_err r runner w.setControllerReference
  unfold reconcileLivePod
  generalize newPod r runner w.setControllerReference = q at hn ⊢
  rcases q with ⟨p, e2⟩
  simp only [] at hn
  subst hn
  cases hs : w.setControllerReference with
  | some e => simp [updateRegistrationToken, hr, hs]
  | none =>
    cases hc : podCompleted pod with
    | false => simp [updateRegistrationToken, hr, hs, hc, checkRegistration_reads]
    | true =>
      simp [updateRegistrationToken, hr, hs, hc, finishLivePod_restart]
      cases hd : w.delete <;> simp

theorem reconcileNoPod_registerable_tokenUpdates (hr : w.isRegisterable = true) :
    tokenUpdates (reconcileNoPod r w runner).trace = [] := by
  rw [reconcileNoPod_registerable r w runner hr]
  cases hs : w.setControllerReference with
  | some e => simp
  | none =>
    cases hc : w.create with
    | none => simp
    | some e => cases he : e.apiAlreadyExists <;> simp [he]

/-- The status updates of a pass are those of the token manager, if any. -/
theorem Reconcile_tokenUpdates (hg : w.getRunner = .ok runner) :
    tokenUpdates (Reconcile r w).trace = [] ∨
    tokenUpdates (Reconcile r w).trace = tokenUpdates (updateRegistrationToken w runner).1 := by
  cases hv : w.validate with
  | some e => simp [Reconcile, hg, hv]
  | none =>
    cases hz : IsZero runner.DeletionTimestamp with
    | false =>
      rw [Reconcile_deleting r w runner hg hv hz]
      exact Or.inl (reconcileDeletion_reads w runner).2
    | true =>
      by_cases hf : finalizerName ∈ runner.Finalizers
      · rw [Reconcile_ready r w runner hg hv hz hf]
        cases hp : w.getPod with
        | ok pod =>
          cases hl : IsZero pod.DeletionTimestamp with
          | false =>
            rw [reconcilePod_dying r w runner pod hp hl]
            exact Or.inl (reconcileTerminatingPod_reads w pod _).2
          | true =>
            rw [reconcilePod_live r w runner pod hp hl]
            cases hr : w.isRegisterable with
            | true => exact Or.inl (reconcileLivePod_registerable_tokenUpdates r w runner pod hr)
            | false =>
              rw [reconcileLivePod_issue r w runner pod hr, issueToken_trace]
              exact Or.inr rfl
        | error e =>
          cases he : e.apiNotFound with
          | false => simp [reconcilePod_unread r w runner e hp he]
          | true =>
            rw [reconcilePod_missing r w runner e hp he]
            cases hr : w.isRegisterable with
            | true => exact Or.inl (reconcileNoPod_registerable_tokenUpdates r w runner hr)
            | false =>
              rw [reconcileNoPod_issue r w runner hr, issueToken_trace]
              exact Or.inr rfl
      · cases hu : w.update <;> simp [Reconcile, hg, hv, hz, addFinalizer_eq, hf, hu]

/-- The recheck delay lies between 70 and 71 seconds for every jitter of at
most 10% of 10 seconds. -/
theorem recheckDelay_bounds (n : Nat) (hn : (n : Int) * 10 ≤ 10 * Second) :
    (70 : Int) * Second ≤ Minute + Jitter (10 * Second) n ∧
    (Minute + Jitter (10 * Second) n : Int) ≤ 71 * Second := by
  have hm : Minute = 60000000000 := by decide
  have hs : Second = 1000000000 := rfl
  unfold Jitter
  rw [hs] at hn
  rw [hm, hs]
  have hn2 : (n : Int) * 10 ≤ 10 * 1000000000 := hn
  have h1 : (70 : Int) * 1000000000 ≤ 60000000000 + (10 * 1000000000 + (n : Int)) := by omega
  have h2 : (60000000000 + (10 * 1000000000 + (n : Int)) : Int) ≤ 71 * 1000000000 := by omega
  exact ⟨h1, h2⟩

theorem finishLivePod_requeue (restart : Bool) (d : Duration) :
    (finishLivePod w runner pod np trace restart d).result.RequeueAfter = 0 ∨
    (finishLivePod w runner pod np trace restart d).result.RequeueAfter = d := by
  unfold finishLivePod
  cases restart <;> cases hs : w.statusPatch <;> cases hd : w.delete <;> simp <;>
    split_ifs <;> simp

theorem checkRegistration_requeue
    (he : (checkRegistration w runner pod np trace).err = none) :
    (checkRegistration w runner pod np trace).result.RequeueAfter = 0 ∨
    (checkRegistration w runner pod np trace).result.RequeueAfter
      = Minute + Jitter (10 * Second) w.jitter := by
  have hf : ∀ nf off : Bool,
      (decideRestart w runner pod np
        (trace ++ [.IsRunnerBusy runner.Spec.Enterprise runner.Spec.Organization
          runner.Spec.Repository runner.Name]) nf off).result.RequeueAfter = 0 ∨
      (decideRestart w runner pod np
        (trace ++ [.IsRunnerBusy runner.Spec.Enterprise runner.Spec.Organization
          runner.Spec.Repository runner.Name]) nf off).result.RequeueAfter
        = Minute + Jitter (10 * Second) w.jitter := by
    intro nf off
    unfold decideRestart
    simp only []
    split_ifs <;> first
      | exact finishLivePod_requeue w runner pod np _ _ _
      | (rcases finishLivePod_requeue w runner pod np
            (trace ++ [.IsRunnerBusy runner.Spec.Enterprise runner.Spec.Organization
              runner.Spec.Repository runner.Name]) true 0 with h | h <;> exact Or.inl h)
      | (rcases finishLivePod_requeue w runner pod np
            (trace ++ [.IsRunnerBusy runner.Spec.Enterprise runner.Spec.Organization
              runner.Spec.Repository runner.Name]) false 0 with h | h <;> exact Or.inl h)
  revert he
  unfold checkRegistration
  cases hd : registrationCheckDeferred w runner with
  | true => simp
  | false =>
    cases hb : w.isRunnerBusy.2 with
    | none => intro _; exact hf false false
    | some e =>
      simp only [Bool.false_eq_true, if_false]
      split_ifs
      · intro _; exact hf true false
      · intro _; exact hf false true
      · simp
      · simp

theorem modifyFirst_append_nil (l : List Container) :
    modifyFirst (fun c => { c with VolumeMounts := c.VolumeMounts ++ [] }) l = l := by
  cases l <;> simp [modifyFirst]

theorem modifyFirst_same (l : List Container) :
    modifyFirst (fun c => { c with VolumeMounts := c.VolumeMounts }) l = l := by
  cases l <;> rfl

/-- The container list of a pod whose Runner overrides the containers. -/
theorem newPodContainers_of_override (h : runner.Spec.Containers ≠ []) :
    newPodContainers r runner =
      modifyFirst (fun c => { c with VolumeMounts := c.VolumeMounts ++ runner.Spec.VolumeMounts })
        (runner.Spec.Containers.map fun c =>
          if c.Name = containerName then { c with Env := c.Env ++ newPodEnv r runner } else c)
      ++ runner.Spec.SidecarContainers := by
  have hlen : (runner.Spec.Containers.length != 0) = true := by
    simpa using h
  unfold newPodContainers
  simp only [hlen, if_true, beq_iff_eq]
  by_cases hv : runner.Spec.VolumeMounts = [] <;> by_cases hs : runner.Spec.SidecarContainers = []
  · simp [hv, hs, modifyFirst_same]
  · have hs2 : (runner.Spec.SidecarContainers.length != 0) = true := by simpa using hs
    simp [hv, hs2, modifyFirst_same]
  · have hv2 : (runner.Spec.VolumeMounts.length != 0) = true := by simpa using hv
    simp [hv2, hs]
  · have hv2 : (runner.Spec.VolumeMounts.length != 0) = true := by simpa using hv
    have hs2 : (runner.Spec.SidecarContainers.length != 0) = true := by simpa using hs
    simp [hv2, hs2]

/-- The container list of a pod whose Runner has neither a container override
nor sidecars: the built-in containers, the first one with the volume mounts of
the spec appended. -/
theorem newPodContainers_of_builtin (h1 : runner.Spec.Containers = [])
    (h2 : runner.Spec.SidecarContainers = []) :
    newPodContainers r runner =
      modifyFirst (fun c => { c with VolumeMounts := c.VolumeMounts ++ runner.Spec.VolumeMounts })
        (builtinContainers r runner) := by
  unfold newPodContainers
  by_cases hv : runner.Spec.VolumeMounts = []
  · simp [h1, h2, hv, modifyFirst_same]
  · have hv2 : (runner.Spec.VolumeMounts.length != 0) = true := by simpa using hv
    simp [h1, h2, hv2]

theorem newPod_volumes (scr : Option GoError) :
    (newPod r runner scr).1.Spec.Volumes = builtinVolumes runner ++ runner.Spec.Volumes := by
  by_cases hv : runner.Spec.Volumes = []
  · cases scr <;> simp [newPod, hv]
  · have hv2 : (runner.Spec.Volumes.length != 0) = true := by simpa using hv
    cases scr <;> simp [newPod, hv2]

/-- The built-in containers when docker runs beside the runner. -/
theorem builtinContainers_docker
    (hd : runner.Spec.DockerdWithinRunnerContainer = none ∨
      runner.Spec.DockerdWithinRunnerContainer = some false)
    (he : runner.Spec.DockerEnabled = none ∨ runner.Spec.DockerEnabled = some true) :
    ∃ c0 c1 : Container, builtinContainers r runner = [c0, c1] ∧
      c0.Name = "runner" ∧
      c0.VolumeMounts.map (fun m => m.Name) = ["work", "runner", "certs-client"] ∧
      c0.Env = newPodEnv r runner ++
        [{ Name := "DOCKER_HOST", Value := "tcp://localhost:2376" },
         { Name := "DOCKER_TLS_VERIFY", Value := "1" },
         { Name := "DOCKER_CERT_PATH", Value := "/certs/client" }] ∧
      c1.Name = "docker" ∧ c1.Image = r.DockerImage ∧
      c1.SecurityContext = some { Privileged := some true } ∧
      c1.VolumeMounts.map (fun m => m.Name) = ["work", "runner", "certs-client"] := by
  unfold builtinContainers
  rcases hd with hd | hd <;> rcases he with he | he <;>
    cases hm : runner.Spec.DockerMTU <;> simp [hd, he, containerName] <;>
    refine ⟨_, _, ⟨rfl, rfl⟩, ?_⟩ <;> simp

/-- The built-in containers when docker runs inside the runner or is disabled:
the `runner` container alone, without volume mounts, whose environment is the
standard one, followed by the MTU entry when docker runs inside the runner and
an MTU is set. -/
theorem builtinContainers_plain
    (h : ¬ ((runner.Spec.DockerdWithinRunnerContainer = none ∨
        runner.Spec.DockerdWithinRunnerContainer = some false) ∧
      (runner.Spec.DockerEnabled = none ∨ runner.Spec.DockerEnabled = some true))) :
    ∃ c : Container, builtinContainers r runner = [c] ∧ c.Name = "runner" ∧
      c.VolumeMounts = [] ∧
      (c.Env = newPodEnv r runner ∨
        ∃ mtu : String, c.Env = newPodEnv r runner ++ [{ Name := "MTU", Value := mtu }]) := by
  unfold builtinContainers
  cases hd : runner.Spec.DockerdWithinRunnerContainer with
  | none =>
    cases he : runner.Spec.DockerEnabled with
    | none => simp [hd, he] at h
    | some b =>
      cases b with
      | true => simp [hd, he] at h
      | false => cases hm : runner.Spec.DockerMTU <;> simp [containerName]
  | some d =>
    cases d with
    | true => cases hm : runner.Spec.DockerMTU <;> simp [containerName]
    | false =>
      cases he : runner.Spec.DockerEnabled with
      | none => simp [hd, he] at h
      | some b =>
        cases b with
        | true => simp [hd, he] at h
        | false => cases hm : runner.Spec.DockerMTU <;> simp [containerName]

theorem builtinVolumes_docker
    (hd : runner.Spec.DockerdWithinRunnerContainer = none ∨
      runner.Spec.DockerdWithinRunnerContainer = some false)
    (he : runner.Spec.DockerEnabled = none ∨ runner.Spec.DockerEnabled = some true) :
    builtinVolumes runner =
      [{ Name := "work", VolumeSource := .EmptyDir },
       { Name := "runner", VolumeSource := .EmptyDir },
       { Name := "certs-client", VolumeSource := .EmptyDir }] := by
  unfold builtinVolumes
  rcases hd with hd | hd <;> rcases he with he | he <;> simp [hd, he]

theorem builtinVolumes_plain
    (h : ¬ ((runner.Spec.DockerdWithinRunnerContainer = none ∨
        runner.Spec.DockerdWithinRunnerContainer = some false) ∧
      (runner.Spec.DockerEnabled = none ∨ runner.Spec.DockerEnabled = some true))) :
    builtinVolumes runner = [] := by
  unfold builtinVolumes
  cases hd : runner.Spec.DockerdWithinRunnerContainer with
  | none =>
    cases he : runner.Spec.DockerEnabled with
    | none => simp [hd, he] at h
    | some b => cases b <;> simp [hd, he] at h ⊢
  | some d =>
    cases d with
    | true => simp
    | false =>
      cases he : runner.Spec.DockerEnabled with
      | none => simp [hd, he] at h
      | some b => cases b <;> simp [hd, he] at h ⊢

/-- A variable of the standard environment that bears one of the three names
of the docker sidecar layout comes from `spec.env`. -/
theorem newPodEnv_docker_names (e : EnvVar) (he : e ∈ newPodEnv r runner)
    (hn : e.Name ∈ ["DOCKER_HOST", "DOCKER_TLS_VERIFY", "DOCKER_CERT_PATH"]) :
    e ∈ runner.Spec.Env := by
  unfold newPodEnv at he
  rcases List.mem_append.mp he with h | h
  · exfalso
    simp only [List.mem_cons, List.mem_singleton, List.not_mem_nil, or_false] at h
    rcases h with h | h | h | h | h | h | h | h | h | h <;> (subst h; simp at hn)
  · exact h

/-- A change of the first container that keeps its name and environment keeps
the names and environments of the list. -/
theorem modifyFirst_names_envs (f : Container → Container)
    (hf : ∀ c, (f c).Name = c.Name ∧ (f c).Env = c.Env) (l : List Container) :
    (modifyFirst f l).map (fun c => (c.Name, c.Env)) = l.map (fun c => (c.Name, c.Env)) := by
  cases l with
  | nil => rfl
  | cons c cs => simp [modifyFirst, (hf c).1, (hf c).2]

/-- The names and environments of the containers of a pod whose Runner
overrides the containers, in order. -/
theorem newPodContainers_override_envs (h : runner.Spec.Containers ≠ []) :
    (newPodContainers r runner).map (fun c => (c.Name, c.Env)) =
      runner.Spec.Containers.map (fun c =>
        (c.Name, if c.Name = containerName then c.Env ++ newPodEnv r runner else c.Env)) ++
      runner.Spec.SidecarContainers.map (fun c => (c.Name, c.Env)) := by
  rw [newPodContainers_of_override r runner h, List.map_append,
    modifyFirst_names_envs
      (fun c => { c with VolumeMounts := c.VolumeMounts ++ runner.Spec.VolumeMounts })
      (fun c => ⟨rfl, rfl⟩), List.map_map]
  congr 1
  apply List.map_congr_left
  intro c _
  by_cases hn : c.Name = containerName <;> simp [hn]

end Stages

/-! ## Claims -/

/-- C1: in a pass that queries `IsRunnerBusy` (which happens only on a live
pod) and is answered busy = true without error, no pod `Delete` is issued,
whatever the hash label of the pod and the freshly computed hash are. -/
theorem busy_runner_pod_is_not_deleted (r : RunnerReconciler) (w : World)
    (hq : busyQueries (Reconcile r w).trace ≠ [])
    (hb : w.isRunnerBusy = (true, none)) :
    podDeletes (Reconcile r w).trace = [] := by
  obtain ⟨runner, pod, hc⟩ := Reconcile_query r w hq
  rw [Reconcile_check r w runner pod hc]
  simp [checkRegistration, hc.notDeferred, hb, decideRestart,
    (finishLivePod_keep w runner pod _ _ 0).1]

theorem busy_runner_pod_is_not_deleted_witness :
    busyQueries (Reconcile sampleReconciler
        { sampleWorld with
          getPod := .ok { samplePod with Labels := [(LabelKeyPodTemplateHash, "stale")] }
          isRunnerBusy := (true, none) }).trace ≠ [] ∧
    podDeletes (Reconcile sampleReconciler
        { sampleWorld with
          getPod := .ok { samplePod with Labels := [(LabelKeyPodTemplateHash, "stale")] }
          isRunnerBusy := (true, none) }).trace = [] :=
  ⟨by decide, busy_runner_pod_is_not_deleted _ _ (by decide) rfl⟩

/-- C2: when `ListRunners` returns a list in which the first entry whose name
equals the requested name has busy = true, `unregisterRunner` returns false
with the error "runner is busy" and does not call `RemoveRunner`. -/
theorem unregisterRunner_busy_fails_closed (w : World) (enterprise org repo name : String)
    (runners : List GitHubRunner) (g : GitHubRunner)
    (hl : w.listRunners = .ok runners)
    (hf : runners.find? (fun x => x.GetName == name) = some g)
    (hb : g.GetBusy = true) :
    (unregisterRunner w enterprise org repo name).2 = (false, some (Errorf "runner is busy")) ∧
    removals (unregisterRunner w enterprise org repo name).1 = [] := by
  simp [unregisterRunner, hl, unregisterLoop_eq, hf, hb]

theorem unregisterRunner_busy_fails_closed_witness :
    (unregisterRunner
        { sampleWorld with
          listRunners := .ok [{ ID := some 7, Name := some "r0" },
                              { ID := some 8, Name := some "r1", Busy := some true },
                              { ID := some 9, Name := some "r1", Busy := some false }] }
        "" "" "acme/app" "r1").2 = (false, some (Errorf "runner is busy")) ∧
    removals (unregisterRunner
        { sampleWorld with
          listRunners := .ok [{ ID := some 7, Name := some "r0" },
                              { ID := some 8, Name := some "r1", Busy := some true },
                              { ID := some 9, Name := some "r1", Busy := some false }] }
        "" "" "acme/app" "r1").1 = [] :=
  unregisterRunner_busy_fails_closed _ "" "" "acme/app" "r1" _
    { ID := some 8, Name := some "r1", Busy := some true } rfl (by decide) rfl

/-- C3, as stated, fails: a Runner that is being deleted, carries the finalizer,
has a token and is listed as busy, but does not pass validation, makes
`Reconcile` stop at the validation step and return no error. -/
theorem deleting_busy_runner_counterexample :
    (IsZero deletedRunner.DeletionTimestamp = false ∧
      finalizerName ∈ deletedRunner.Finalizers ∧
      0 < deletedRunner.Status.Registration.Token.length ∧
      [{ ID := some 7, Name := some "r0" }, sampleRecord true].find?
        (fun x => x.GetName == deletedRunner.Name) = some (sampleRecord true) ∧
      (sampleRecord true).GetBusy = true) ∧
    Reconcile sampleReconciler
      { deletionWorld true with validate := some { msg := "spec is invalid" } }
      = ⟨[], {}, none⟩ := by
  decide

/-- C3, amended: for every Runner that passes validation, is being deleted,
carries the finalizer and has a non-empty status token, if the first record
the registration service lists under its name is busy, then `Reconcile`
returns the error "runner is busy" with an empty result and issues no write
of the Runner, so the finalizer stays in place. -/
theorem deleting_busy_runner_keeps_finalizer (r : RunnerReconciler) (w : World)
    (runner : Runner) (runners : List GitHubRunner) (g : GitHubRunner)
    (hg : w.getRunner = .ok runner) (hv : w.validate = none)
    (hd : IsZero runner.DeletionTimestamp = false)
    (hf : finalizerName ∈ runner.Finalizers)
    (ht : 0 < runner.Status.Registration.Token.length)
    (hl : w.listRunners = .ok runners)
    (hfind : runners.find? (fun x => x.GetName == runner.Name) = some g)
    (hb : g.GetBusy = true) :
    (Reconcile r w).err = some (Errorf "runner is busy") ∧
    (Reconcile r w).result = {} ∧
    runnerWrites (Reconcile r w).trace = [] := by
  rw [Reconcile_deleting r w runner hg hv hd]
  simp [reconcileDeletion, removeFinalizer_eq, hf, ht, unregisterRunner, hl, unregisterLoop_eq,
    hfind, hb, Errorf]

theorem deleting_busy_runner_keeps_finalizer_witness :
    (Reconcile sampleReconciler (deletionWorld true)).err = some (Errorf "runner is busy") ∧
    (Reconcile sampleReconciler (deletionWorld true)).result = {} ∧
    runnerWrites (Reconcile sampleReconciler (deletionWorld true)).trace = [] :=
  deleting_busy_runner_keeps_finalizer sampleReconciler (deletionWorld true) deletedRunner
    [{ ID := some 7, Name := some "r0" }, sampleRecord true] (sampleRecord true)
    rfl rfl (by decide) (by decide) (by decide) rfl (by decide) rfl

/-- C4, as stated, fails twice: for an idle Runner that does not pass
validation no `Patch` is issued at all, and for a valid one whose `Patch` is
refused the pass returns that error. -/
theorem deleting_idle_runner_counterexample :
    (IsZero deletedRunner.DeletionTimestamp = false ∧
      finalizerName ∈ deletedRunner.Finalizers ∧
      [{ ID := some 7, Name := some "r0" }, sampleRecord false].find?
        (fun x => x.GetName == deletedRunner.Name) = some (sampleRecord false) ∧
      (sampleRecord false).GetBusy = false) ∧
    runnerWrites (Reconcile sampleReconciler
      { deletionWorld false with validate := some { msg := "spec is invalid" } }).trace = [] ∧
    (Reconcile sampleReconciler
      { deletionWorld false with patch := some plainError }).err = some plainError := by
  decide

/-- C4, amended: for every Runner that passes validation, is being deleted and
carries the finalizer, if its status token is empty, or the registration
service does not list it, or lists it as idle and the removal succeeds, then
`Reconcile` issues exactly one write of the Runner, the `Patch` whose
finalizer list is the original one without the occurrences of the
finalizer, creates and deletes no pod, and returns an empty result with the
error of that `Patch`: no error when the `Patch` succeeds.  With an empty token
no request reaches the registration service. -/
theorem deleting_idle_runner_drops_finalizer (r : RunnerReconciler) (w : World)
    (runner : Runner)
    (hg : w.getRunner = .ok runner) (hv : w.validate = none)
    (hd : IsZero runner.DeletionTimestamp = false)
    (hf : finalizerName ∈ runner.Finalizers)
    (hcase : runner.Status.Registration.Token.length = 0 ∨
      ∃ runners, w.listRunners = .ok runners ∧
        (runners.find? (fun x => x.GetName == runner.Name) = none ∨
          ∃ g, runners.find? (fun x => x.GetName == runner.Name) = some g ∧
            g.GetBusy = false ∧ w.removeRunner = none)) :
    runnerWrites (Reconcile r w).trace =
      [.Patch { runner with
          Finalizers := runner.Finalizers.filter (fun f => f != finalizerName) }] ∧
    podCreates (Reconcile r w).trace = [] ∧
    podDeletes (Reconcile r w).trace = [] ∧
    (Reconcile r w).result = {} ∧
    (Reconcile r w).err = w.patch ∧
    (runner.Status.Registration.Token.length = 0 → serviceCalls (Reconcile r w).trace = []) := by
  rw [Reconcile_deleting r w runner hg hv hd]
  by_cases ht : runner.Status.Registration.Token.length = 0
  · cases hp : w.patch <;> simp [reconcileDeletion, removeFinalizer_eq, hf, ht, hp]
  · have ht2 : 0 < runner.Status.Registration.Token.length := Nat.pos_of_ne_zero ht
    rcases hcase with h0 | ⟨runners, hl, hnone | ⟨g, hsome, hidle, hrm⟩⟩
    · exact absurd h0 ht
    · cases hp : w.patch <;>
        simp [reconcileDeletion, removeFinalizer_eq, hf, ht, ht2, unregisterRunner, hl,
          unregisterLoop_eq, hnone, hp]
    · by_cases hid : g.GetID = 0 <;> cases hp : w.patch <;>
        simp [reconcileDeletion, removeFinalizer_eq, hf, ht, ht2, unregisterRunner, hl,
          unregisterLoop_eq, hsome, hidle, hrm, hid, hp]

theorem deleting_idle_runner_drops_finalizer_witness :
    runnerWrites (Reconcile sampleReconciler (deletionWorld false)).trace =
      [.Patch { deletedRunner with Finalizers := [] }] ∧
    (Reconcile sampleReconciler (deletionWorld false)).err = none :=
  have h := deleting_idle_runner_drops_finalizer sampleReconciler (deletionWorld false)
    deletedRunner rfl rfl (by decide) (by decide)
    (Or.inr ⟨_, rfl, Or.inr ⟨sampleRecord false, by decide, rfl, rfl⟩⟩)
  ⟨h.1, h.2.2.2.2.1⟩

/-- C5: for a valid Runner that is not being deleted and carries the
finalizer, whose pod carries a deletion timestamp, `Reconcile` issues a pod
`Delete` with grace period 0 if and only if now is after the deletion
timestamp plus one minute, and then it is the only `Delete`, of that pod; when
now is not after it, the pass issues no call at all (no cluster write, no
request to the registration service) and returns an empty result without
error. -/
theorem terminating_pod_forced_iff_timeout (r : RunnerReconciler) (w : World)
    (runner : Runner) (pod : Pod) (dt : Time)
    (hg : w.getRunner = .ok runner) (hv : w.validate = none)
    (hz : IsZero runner.DeletionTimestamp = true)
    (hf : finalizerName ∈ runner.Finalizers)
    (hp : w.getPod = .ok pod)
    (hdt : pod.DeletionTimestamp = some dt) (hnz : IsZero pod.DeletionTimestamp = false) :
    ((∃ p, (p, some 0) ∈ podDeletes (Reconcile r w).trace) ↔ dt + 1 * Minute < w.nowDeletion) ∧
    (dt + 1 * Minute < w.nowDeletion → podDeletes (Reconcile r w).trace = [(pod, some 0)]) ∧
    (w.nowDeletion ≤ dt + 1 * Minute →
      (Reconcile r w).trace = [] ∧ (Reconcile r w).result = {} ∧ (Reconcile r w).err = none) := by
  rw [Reconcile_ready r w runner hg hv hz hf, reconcilePod_terminating r w runner pod dt hp hdt hnz]
  have hsub := Time.Sub_pos w.nowDeletion (dt + Minute)
  simp only [one_mul]
  by_cases hlt : dt + Minute < w.nowDeletion
  · have hpos := hsub.mpr hlt
    have hnle : ¬ w.nowDeletion ≤ dt + Minute := not_le.mpr hlt
    cases hdel : w.delete with
    | none => simp [reconcileTerminatingPod, Time.Add, hpos, hlt, hnle, hdel]
    | some e =>
      cases he : e.apiNotFound <;>
        simp [reconcileTerminatingPod, Time.Add, hpos, hlt, hnle, hdel, he]
  · have hnpos : ¬ (0 : Int) < Time.Sub w.nowDeletion (dt + Minute) := fun h => hlt (hsub.mp h)
    have hle : w.nowDeletion ≤ dt + Minute := not_lt.mp hlt
    simp [reconcileTerminatingPod, Time.Add, hnpos, hlt, hle]

theorem terminating_pod_forced_iff_timeout_witness :
    ((∃ p, (p, some 0) ∈ podDeletes (Reconcile sampleReconciler
        { sampleWorld with getPod := .ok terminatingPod, nowDeletion := 101 * Second }).trace) ↔
      40 * Second + 1 * Minute < 101 * Second) ∧
    (40 * Second + 1 * Minute < 101 * Second →
      podDeletes (Reconcile sampleReconciler
        { sampleWorld with getPod := .ok terminatingPod, nowDeletion := 101 * Second }).trace
        = [(terminatingPod, some 0)]) ∧
    (101 * Second ≤ 40 * Second + 1 * Minute →
      (Reconcile sampleReconciler
        { sampleWorld with getPod := .ok terminatingPod, nowDeletion := 101 * Second }).trace = [] ∧
      (Reconcile sampleReconciler
        { sampleWorld with getPod := .ok terminatingPod, nowDeletion := 101 * Second }).result = {} ∧
      (Reconcile sampleReconciler
        { sampleWorld with getPod := .ok terminatingPod, nowDeletion := 101 * Second }).err = none) :=
  terminating_pod_forced_iff_timeout sampleReconciler
    { sampleWorld with getPod := .ok terminatingPod, nowDeletion := 101 * Second }
    sampleRunner terminatingPod (40 * Second) rfl rfl (by decide) (by decide) rfl rfl (by decide)

/-- C6: in a pass that performs the registration check on the pod it has read
(so the pod is live and the Runner registerable), if the answer does not
report busy = true (busy = false with no error, with a not-found error or with
an offline error) and the pod-template-hash label of the pod differs from that
of `newPod(runner)`, then `Reconcile` issues exactly one pod `Delete`, an
ordinary one of that pod, and returns an empty result. -/
theorem drifted_idle_pod_is_deleted (r : RunnerReconciler) (w : World)
    (runner : Runner) (pod : Pod) (answer : Option GoError)
    (hg : w.getRunner = .ok runner) (hp : w.getPod = .ok pod)
    (hq : busyQueries (Reconcile r w).trace ≠ [])
    (hb : w.isRunnerBusy = (false, answer))
    (ha : answer = none ∨
      ∃ err, answer = some err ∧ (err.asRunnerNotFound = true ∨ err.asRunnerOffline = true))
    (hh : pod.Labels.get LabelKeyPodTemplateHash ≠
      (newPod r runner w.setControllerReference).1.Labels.get LabelKeyPodTemplateHash) :
    podDeletes (Reconcile r w).trace = [(pod, none)] ∧ (Reconcile r w).result = {} := by
  obtain ⟨runner2, pod2, hc⟩ := Reconcile_query r w hq
  have hr : runner2 = runner := by
    have := hc.getRunner; rw [hg] at this; injection this with h; exact h.symm
  have hpd : pod2 = pod := by
    have := hc.getPod; rw [hp] at this; injection this with h; exact h.symm
  subst hr; subst hpd
  rw [Reconcile_check r w runner2 pod2 hc]
  rcases ha with rfl | ⟨err, rfl, hnf | hoff⟩
  · simp [checkRegistration, hc.notDeferred, hb, decideRestart, hh, finishLivePod_restart]
    cases w.delete <;> simp
  · simp [checkRegistration, hc.notDeferred, hb, decideRestart, hh, hnf, finishLivePod_restart]
    cases w.delete <;> simp
  · by_cases hnf : err.asRunnerNotFound = true
    · simp [checkRegistration, hc.notDeferred, hb, decideRestart, hh, hnf, finishLivePod_restart]
      cases w.delete <;> simp
    · simp [checkRegistration, hc.notDeferred, hb, decideRestart, hh, hnf, hoff,
        finishLivePod_restart]
      cases w.delete <;> simp

theorem drifted_idle_pod_is_deleted_witness :
    podDeletes (Reconcile sampleReconciler
        { sampleWorld with getPod := .ok stalePod, isRunnerBusy := (false, some offlineError) }).trace
      = [(stalePod, none)] ∧
    (Reconcile sampleReconciler
        { sampleWorld with getPod := .ok stalePod, isRunnerBusy := (false, some offlineError) }).result
      = {} :=
  drifted_idle_pod_is_deleted sampleReconciler
    { sampleWorld with getPod := .ok stalePod, isRunnerBusy := (false, some offlineError) }
    sampleRunner stalePod (some offlineError) rfl rfl (by decide) rfl
    (Or.inr ⟨offlineError, rfl, Or.inr rfl⟩) (by decide)

/-- C7: `Reconcile` issues a pod `Create` in a pass if and only if the Runner
was read, passes validation, is not being deleted, carries the finalizer, has
no pod, is registerable (`updateRegistrationToken` returns (false, nil)) and
`newPod` succeeds; the pass then issues exactly one `Create`, of the pod
`newPod(runner)`.  A pass in which the token manager has updated the status
with a new token creates no pod and returns a requeue request without error. -/
theorem pod_created_iff_ready (r : RunnerReconciler) (w : World) :
    (podCreates (Reconcile r w).trace ≠ [] ↔
      ∃ runner, w.getRunner = .ok runner ∧ w.validate = none ∧
        IsZero runner.DeletionTimestamp = true ∧ finalizerName ∈ runner.Finalizers ∧
        podMissing w = true ∧
        (updateRegistrationToken w runner).2 = (false, none) ∧
        (newPod r runner w.setControllerReference).2 = none) ∧
    (∀ runner, w.getRunner = .ok runner → podCreates (Reconcile r w).trace ≠ [] →
      podCreates (Reconcile r w).trace = [(newPod r runner w.setControllerReference).1]) ∧
    (tokenUpdates (Reconcile r w).trace ≠ [] → w.statusUpdate = none →
      podCreates (Reconcile r w).trace = [] ∧
      (Reconcile r w).result = { Requeue := true } ∧ (Reconcile r w).err = none) := by
  obtain ⟨h1, h2, h3⟩ := Reconcile_creates r w
  have hreg : ∀ runner : Runner,
      (updateRegistrationToken w runner).2 = (false, none) ↔ w.isRegisterable = true := by
    intro runner
    constructor
    · intro h; exact (updateRegistrationToken_idle w runner h).1
    · intro h; simp [updateRegistrationToken, h]
  refine ⟨⟨?_, ?_⟩, ?_, h3⟩
  · intro hne
    cases hg : w.getRunner with
    | error e =>
      exact absurd (h2 (by intro runner; rw [hg]; exact fun h => by injection h)) hne
    | ok runner =>
      rw [h1 runner hg] at hne
      by_cases hc : w.validate = none ∧ IsZero runner.DeletionTimestamp = true ∧
          finalizerName ∈ runner.Finalizers ∧ podMissing w = true ∧
          w.isRegisterable = true ∧ w.setControllerReference = none
      · obtain ⟨c1, c2, c3, c4, c5, c6⟩ := hc
        exact ⟨runner, rfl, c1, c2, c3, c4, (hreg runner).mpr c5,
          by rw [newPod_err]; exact c6⟩
      · rw [if_neg hc] at hne
        exact absurd rfl hne
  · rintro ⟨runner, hg, c1, c2, c3, c4, c5, c6⟩
    rw [newPod_err] at c6
    rw [h1 runner hg, if_pos ⟨c1, c2, c3, c4, (hreg runner).mp c5, c6⟩]
    simp
  · intro runner hg hne
    rw [h1 runner hg] at hne ⊢
    split_ifs at hne ⊢
    · rfl
    · exact absurd rfl hne

theorem pod_created_iff_ready_witness :
    podCreates (Reconcile sampleReconciler noPodWorld).trace =
      [(newPod sampleReconciler sampleRunner none).1] ∧
    (tokenUpdates (Reconcile sampleReconciler
        { noPodWorld with isRegisterable := false }).trace ≠ [] ∧
      (Reconcile sampleReconciler { noPodWorld with isRegisterable := false }).result
        = { Requeue := true }) :=
  ⟨(pod_created_iff_ready sampleReconciler noPodWorld).2.1 sampleRunner rfl (by decide),
   by decide,
   ((pod_created_iff_ready sampleReconciler { noPodWorld with isRegisterable := false }).2.2
      (by decide) rfl).2.1⟩

/-- C8, as stated, fails in its last part: for a Runner whose container
override holds no container named `runner`, two different tokens give the
same pod, and no container of it has a RUNNER_TOKEN entry. -/
theorem token_reaches_pod_counterexample :
    (customRunner "a").Labels = (customRunner "b").Labels ∧
    (customRunner "a").Annotations = (customRunner "b").Annotations ∧
    (customRunner "a").Spec = (customRunner "b").Spec ∧
    (customRunner "a").Status.Registration.Token ≠ (customRunner "b").Status.Registration.Token ∧
    newPod sampleReconciler (customRunner "a") none
      = newPod sampleReconciler (customRunner "b") none ∧
    ∀ c ∈ (newPod sampleReconciler (customRunner "a") none).1.Spec.Containers,
      ∀ e ∈ c.Env, e.Name ≠ "RUNNER_TOKEN" := by
  decide

/-- C8, amended: two Runners with equal labels, annotations and spec, built by
the same controller, get the same pod-template-hash label from `newPod`,
whatever their status fields are; the token of the status is the RUNNER_TOKEN
value of the standard environment, which is the start of the environment of
the built-in `runner` container when the spec has no container override, and
which is appended to the own environment of every override container named
`runner` when it has one, while every other override container and every
sidecar keeps exactly its own environment. -/
theorem hash_label_ignores_status (r : RunnerReconciler) (runner1 runner2 : Runner)
    (scr1 scr2 : Option GoError)
    (hl : runner1.Labels = runner2.Labels) (ha : runner1.Annotations = runner2.Annotations)
    (hs : runner1.Spec = runner2.Spec) :
    (newPod r runner1 scr1).1.Labels.get LabelKeyPodTemplateHash =
      (newPod r runner2 scr2).1.Labels.get LabelKeyPodTemplateHash ∧
    (newPodEnv r runner1).find? (fun e => e.Name == "RUNNER_TOKEN")
      = some ⟨"RUNNER_TOKEN", runner1.Status.Registration.Token⟩ ∧
    (runner1.Spec.Containers = [] →
      ∃ c cs rest, (newPod r runner1 scr1).1.Spec.Containers = c :: cs ∧
        c.Name = containerName ∧ c.Env = newPodEnv r runner1 ++ rest ∧
        c.Env.find? (fun e => e.Name == "RUNNER_TOKEN")
          = some ⟨"RUNNER_TOKEN", runner1.Status.Registration.Token⟩) ∧
    (runner1.Spec.Containers ≠ [] →
      (newPod r runner1 scr1).1.Spec.Containers.map (fun c => (c.Name, c.Env)) =
        runner1.Spec.Containers.map (fun c =>
          (c.Name, if c.Name = containerName then c.Env ++ newPodEnv r runner1 else c.Env)) ++
        runner1.Spec.SidecarContainers.map (fun c => (c.Name, c.Env))) := by
  refine ⟨?_, newPodEnv_token r runner1, ?_, ?_⟩
  · rw [newPod_hash, newPod_hash]
    unfold podTemplateHash
    rw [hl, ha, hs]
  · intro h
    obtain ⟨c, cs, rest, h1, h2, h3⟩ := newPodContainers_builtin r runner1 h
    refine ⟨c, cs, rest, ?_, h2, h3, ?_⟩
    · rw [newPod_containers]; exact h1
    · rw [h3, List.find?_append, newPodEnv_token]; rfl
  · intro h
    rw [newPod_containers]
    exact newPodContainers_override_envs r runner1 h

theorem hash_label_ignores_status_witness :
    (newPod sampleReconciler sampleRunner none).1.Labels.get LabelKeyPodTemplateHash =
      (newPod sampleReconciler rotatedRunner none).1.Labels.get LabelKeyPodTemplateHash ∧
    (∃ c cs rest, (newPod sampleReconciler rotatedRunner none).1.Spec.Containers = c :: cs ∧
      c.Name = containerName ∧ c.Env = newPodEnv sampleReconciler rotatedRunner ++ rest ∧
      c.Env.find? (fun e => e.Name == "RUNNER_TOKEN") = some ⟨"RUNNER_TOKEN", "tok2"⟩) ∧
    (newPod sampleReconciler overrideRunner none).1.Spec.Containers.map (fun c => (c.Name, c.Env)) =
      [("job", []),
       ("runner", [{ Name := "A", Value := "1" }] ++ newPodEnv sampleReconciler overrideRunner),
       ("proxy", [])] :=
  ⟨(hash_label_ignores_status sampleReconciler sampleRunner rotatedRunner none none
      rfl rfl rfl).1,
   (hash_label_ignores_status sampleReconciler rotatedRunner sampleRunner none none
      rfl rfl rfl).2.2.1 rfl,
   (hash_label_ignores_status sampleReconciler overrideRunner overrideRunner none none
      rfl rfl rfl).2.2.2 (by decide)⟩

/-- C9, evaluated on two consecutive passes over a registered, idle runner
whose pod carries the current hash: the first pass, at second 100, queries
`IsRunnerBusy` and writes the phase of the pod to the status, leaving
`lastRegistrationCheckTime` unset; the second pass, one second later on the
Runner so written, queries `IsRunnerBusy` again. -/
theorem registered_runner_is_queried_every_pass :
    (Reconcile sampleReconciler firstPass).trace =
      [.IsRunnerBusy "" "" "acme/app" "r1", .StatusPatch sampleRunner] ∧
    secondPass.getRunner = .ok sampleRunner ∧
    (Reconcile sampleReconciler secondPass).trace = [.IsRunnerBusy "" "" "acme/app" "r1"] ∧
    secondPass.nowDebounce - firstPass.nowCheck = 1 * Second :=
  ⟨by decide, rfl, by decide, by decide⟩

/-- C10: in a pass that performs the registration check on the pod it has read
(so the pod is live and the Runner registerable), if the answer is a not-found
or an offline error and now is after the creation timestamp of the pod plus
10 minutes, then `Reconcile` issues exactly one pod `Delete`, an ordinary one
of that pod, issues no write of the Runner (so `lastRegistrationCheckTime` is
not written), and returns an empty result. -/
theorem unregistered_pod_is_deleted_after_timeout (r : RunnerReconciler) (w : World)
    (pod : Pod) (err : GoError)
    (hp : w.getPod = .ok pod)
    (hq : busyQueries (Reconcile r w).trace ≠ [])
    (hb : w.isRunnerBusy.2 = some err)
    (ha : err.asRunnerNotFound = true ∨ err.asRunnerOffline = true)
    (ht : pod.CreationTimestamp + 10 * Minute < w.nowCheck) :
    podDeletes (Reconcile r w).trace = [(pod, none)] ∧
    runnerWrites (Reconcile r w).trace = [] ∧
    (Reconcile r w).result = {} := by
  obtain ⟨runner, pod2, hc⟩ := Reconcile_query r w hq
  have hpd : pod2 = pod := by
    have := hc.getPod; rw [hp] at this; injection this with h; exact h.symm
  subst hpd
  rw [Reconcile_check r w runner pod2 hc]
  have hpos : (0 : Int) < Time.Sub w.nowCheck (pod2.CreationTimestamp + 10 * Minute) :=
    (Time.Sub_pos _ _).mpr ht
  by_cases hnf : err.asRunnerNotFound = true
  · simp [checkRegistration, hc.notDeferred, hb, decideRestart, hnf, Time.Add, hpos,
      finishLivePod_restart]
    cases w.delete <;> simp
  · have hoff : err.asRunnerOffline = true := ha.resolve_left hnf
    simp [checkRegistration, hc.notDeferred, hb, decideRestart, hnf, hoff, Time.Add, hpos,
      finishLivePod_restart]
    cases w.delete <;> simp

theorem unregistered_pod_is_deleted_after_timeout_witness :
    podDeletes (Reconcile sampleReconciler
      { sampleWorld with
        isRunnerBusy := (false, some notFoundError), nowCheck := 601 * Second }).trace
      = [(samplePod, none)] ∧
    runnerWrites (Reconcile sampleReconciler
      { sampleWorld with
        isRunnerBusy := (false, some notFoundError), nowCheck := 601 * Second }).trace = [] ∧
    (Reconcile sampleReconciler
      { sampleWorld with
        isRunnerBusy := (false, some notFoundError), nowCheck := 601 * Second }).result = {} :=
  unregistered_pod_is_deleted_after_timeout sampleReconciler
    { sampleWorld with isRunnerBusy := (false, some notFoundError), nowCheck := 601 * Second }
    samplePod notFoundError rfl (by decide) rfl (Or.inl rfl) (by decide)

/-- C11, as stated, fails twice: when the answer is not-found within the
registration timeout but the hash label of the pod is stale, the pod is
deleted and no status patch is issued; and when the status patch is refused
the pass returns that error with an empty result. -/
theorem recheck_scheduled_counterexample :
    (busyQueries (Reconcile sampleReconciler
        { unlistedWorld with getPod := .ok stalePod }).trace ≠ [] ∧
      notFoundError.asRunnerNotFound = true ∧
      unlistedWorld.nowCheck ≤ stalePod.CreationTimestamp + 10 * Minute ∧
      podDeletes (Reconcile sampleReconciler
        { unlistedWorld with getPod := .ok stalePod }).trace = [(stalePod, none)] ∧
      runnerWrites (Reconcile sampleReconciler
        { unlistedWorld with getPod := .ok stalePod }).trace = []) ∧
    (busyQueries (Reconcile sampleReconciler
        { unlistedWorld with statusPatch := some plainError }).trace ≠ [] ∧
      (Reconcile sampleReconciler
        { unlistedWorld with statusPatch := some plainError }).result = {} ∧
      (Reconcile sampleReconciler
        { unlistedWorld with statusPatch := some plainError }).err = some plainError) := by
  decide

/-- C11, amended: in a pass that performs the registration check on the pod it
has read (so the pod is live and the Runner registerable), if the answer is a
not-found or an offline error, now is not after the creation timestamp of the
pod plus 10 minutes, and no restart comes from the hashes (the answer carries
busy = true or the hash label of the pod equals that of `newPod(runner)`),
then `Reconcile` deletes no pod and issues exactly one write of the Runner, the
status patch that sets `lastRegistrationCheckTime` to the time read for it; the
pass returns the error of that patch, and when the patch succeeds a result
with a positive `RequeueAfter`. -/
theorem unregistered_pod_is_rechecked_before_timeout (r : RunnerReconciler) (w : World)
    (runner : Runner) (pod : Pod) (err : GoError)
    (hg : w.getRunner = .ok runner) (hp : w.getPod = .ok pod)
    (hq : busyQueries (Reconcile r w).trace ≠ [])
    (hb : w.isRunnerBusy.2 = some err)
    (ha : err.asRunnerNotFound = true ∨ err.asRunnerOffline = true)
    (ht : w.nowCheck ≤ pod.CreationTimestamp + 10 * Minute)
    (hh : w.isRunnerBusy.1 = true ∨
      pod.Labels.get LabelKeyPodTemplateHash =
        (newPod r runner w.setControllerReference).1.Labels.get LabelKeyPodTemplateHash) :
    podDeletes (Reconcile r w).trace = [] ∧
    runnerWrites (Reconcile r w).trace =
      [.StatusPatch { runner with
          Status := { runner.Status with LastRegistrationCheckTime := some w.nowPatch } }] ∧
    (Reconcile r w).err = w.statusPatch ∧
    (w.statusPatch = none → 0 < (Reconcile r w).result.RequeueAfter) := by
  obtain ⟨runner2, pod2, hc⟩ := Reconcile_query r w hq
  have hr : runner2 = runner := by
    have := hc.getRunner; rw [hg] at this; injection this with h; exact h.symm
  have hpd : pod2 = pod := by
    have := hc.getPod; rw [hp] at this; injection this with h; exact h.symm
  subst hr; subst hpd
  rw [Reconcile_check r w runner2 pod2 hc]
  have hnpos : ¬ (0 : Int) < Time.Sub w.nowCheck (pod2.CreationTimestamp + 10 * Minute) :=
    fun h => absurd ((Time.Sub_pos _ _).mp h) (not_lt.mpr ht)
  have hd := recheckDelay_pos w.jitter
  have hrestart : (!w.isRunnerBusy.1 &&
      pod2.Labels.get LabelKeyPodTemplateHash !=
        (newPod r runner2 w.setControllerReference).1.Labels.get LabelKeyPodTemplateHash)
      = false := by
    rcases hh with h | h
    · simp [h]
    · simp [h]
  have key : ∀ nf off : Bool, (nf || off) = true →
      decideRestart w runner2 pod2 (newPod r runner2 w.setControllerReference).1
        ([] ++ [.IsRunnerBusy runner2.Spec.Enterprise runner2.Spec.Organization
          runner2.Spec.Repository runner2.Name]) nf off
      = finishLivePod w runner2 pod2 (newPod r runner2 w.setControllerReference).1
        ([] ++ [.IsRunnerBusy runner2.Spec.Enterprise runner2.Spec.Organization
          runner2.Spec.Repository runner2.Name]) false
        (Minute + Jitter (10 * Second) w.jitter) := by
    intro nf off hno
    unfold decideRestart
    simp only [hrestart, Time.Add, hnpos, hno]
    cases nf <;> cases off <;> simp at hno ⊢
  have hout : checkRegistration w runner2 pod2 (newPod r runner2 w.setControllerReference).1 []
      = finishLivePod w runner2 pod2 (newPod r runner2 w.setControllerReference).1
        ([] ++ [.IsRunnerBusy runner2.Spec.Enterprise runner2.Spec.Organization
          runner2.Spec.Repository runner2.Name]) false
        (Minute + Jitter (10 * Second) w.jitter) := by
    unfold checkRegistration
    simp only [hc.notDeferred, hb, Bool.false_eq_true, if_false]
    by_cases hnf : err.asRunnerNotFound = true
    · simp only [hnf, if_true]
      exact key true false rfl
    · have hoff : err.asRunnerOffline = true := ha.resolve_left hnf
      simp only [hnf, hoff, if_true, if_false]
      exact key false true rfl
  rw [hout, finishLivePod_recheck w runner2 pod2 _ _ _ hd]
  refine ⟨by simp, by simp, rfl, ?_⟩
  intro hs
  simp only [hs]
  exact hd

theorem unregistered_pod_is_rechecked_before_timeout_witness :
    podDeletes (Reconcile sampleReconciler unlistedWorld).trace = [] ∧
    runnerWrites (Reconcile sampleReconciler unlistedWorld).trace =
      [.StatusPatch { sampleRunner with
          Status := { sampleRunner.Status with
            LastRegistrationCheckTime := some unlistedWorld.nowPatch } }] ∧
    (Reconcile sampleReconciler unlistedWorld).err = unlistedWorld.statusPatch ∧
    (unlistedWorld.statusPatch = none →
      0 < (Reconcile sampleReconciler unlistedWorld).result.RequeueAfter) :=
  unregistered_pod_is_rechecked_before_timeout sampleReconciler unlistedWorld sampleRunner
    samplePod notFoundError rfl rfl (by decide) rfl (Or.inl rfl) (by decide) (Or.inr (by decide))

/-- C12, as stated, fails twice: a live pod in phase `Failed` whose `runner`
container has terminated with exit code 0 is not deleted, and the registration
service is queried; and a pod in phase `Succeeded` is not deleted when
`newPod` returns an error. -/
theorem completed_pod_counterexample :
    (IsZero failedPod.DeletionTimestamp = true ∧
      (∃ s ∈ failedPod.Status.ContainerStatuses, s.Name = containerName ∧
        s.Terminated = some { ExitCode := 0 }) ∧
      podDeletes (Reconcile sampleReconciler
        { sampleWorld with getPod := .ok failedPod }).trace = [] ∧
      busyQueries (Reconcile sampleReconciler
        { sampleWorld with getPod := .ok failedPod }).trace = ["r1"]) ∧
    (IsZero succeededPod.DeletionTimestamp = true ∧
      succeededPod.Status.Phase = PodSucceeded ∧
      podDeletes (Reconcile sampleReconciler
        { sampleWorld with
          getPod := .ok succeededPod, setControllerReference := some plainError }).trace = []) := by
  decide

/-- C12, amended: in a pass that reaches a live pod of a registerable Runner
(the Runner is valid, not being deleted and carries the finalizer) and in which
`newPod` succeeds, if the phase of the pod is `Succeeded`, or the phase is
`Running` and a container named `runner` has terminated with exit code 0, then
`Reconcile` issues exactly one pod `Delete`, an ordinary one of that pod, and no
request to the registration service, whatever `lastRegistrationCheckTime` and
the hash labels are. -/
theorem completed_pod_is_deleted (r : RunnerReconciler) (w : World)
    (runner : Runner) (pod : Pod)
    (hg : w.getRunner = .ok runner) (hv : w.validate = none)
    (hz : IsZero runner.DeletionTimestamp = true)
    (hf : finalizerName ∈ runner.Finalizers)
    (hp : w.getPod = .ok pod) (hl : IsZero pod.DeletionTimestamp = true)
    (hr : w.isRegisterable = true)
    (hn : (newPod r runner w.setControllerReference).2 = none)
    (hdone : pod.Status.Phase = PodSucceeded ∨
      (pod.Status.Phase = PodRunning ∧
        ∃ s ∈ pod.Status.ContainerStatuses, s.Name = containerName ∧
          ∃ t, s.Terminated = some t ∧ t.ExitCode = 0)) :
    podDeletes (Reconcile r w).trace = [(pod, none)] ∧
    serviceCalls (Reconcile r w).trace = [] := by
  rw [newPod_err] at hn
  rw [Reconcile_ready r w runner hg hv hz hf, reconcilePod_live r w runner pod hp hl,
    reconcileLivePod_completed r w runner pod (podCompleted_of pod hdone) hr hn,
    finishLivePod_restart]
  cases w.delete <;> simp

theorem completed_pod_is_deleted_witness :
    podDeletes (Reconcile sampleReconciler
      { sampleWorld with getPod := .ok exitedPod }).trace = [(exitedPod, none)] ∧
    serviceCalls (Reconcile sampleReconciler
      { sampleWorld with getPod := .ok exitedPod }).trace = [] :=
  completed_pod_is_deleted sampleReconciler { sampleWorld with getPod := .ok exitedPod }
    sampleRunner exitedPod rfl rfl (by decide) (by decide) rfl (by decide) rfl rfl
    (Or.inr ⟨rfl, { Name := "runner", Terminated := some { ExitCode := 0 } }, by decide, rfl,
      { ExitCode := 0 }, rfl, rfl⟩)

/-- C13, as stated, fails: for a Runner whose container override starts with a
container that is not named `runner`, the first container of the pod is that
container, with an empty environment. -/
theorem first_container_environment_counterexample :
    (newPod sampleReconciler (customRunner "tok") none).1.Spec.Containers.head?
      = some { Name := "custom", Image := "acme/job:1", Env := [] } := by
  decide

/-- C13, amended: for every Runner whose spec has no container override, or
whose override starts with a container named `runner`, the first container of
the pod returned by `newPod` has the environment entries RUNNER_NAME = the name
of the Runner, RUNNER_ORG = spec.organization and RUNNER_REPO =
spec.repository. -/
theorem first_container_environment (r : RunnerReconciler) (runner : Runner)
    (scr : Option GoError)
    (h : runner.Spec.Containers = [] ∨
      ∃ c cs, runner.Spec.Containers = c :: cs ∧ c.Name = containerName) :
    ∃ c cs, (newPod r runner scr).1.Spec.Containers = c :: cs ∧
      (⟨"RUNNER_NAME", runner.Name⟩ : EnvVar) ∈ c.Env ∧
      (⟨"RUNNER_ORG", runner.Spec.Organization⟩ : EnvVar) ∈ c.Env ∧
      (⟨"RUNNER_REPO", runner.Spec.Repository⟩ : EnvVar) ∈ c.Env := by
  obtain ⟨h1, h2, h3⟩ := newPodEnv_standard r runner
  rw [newPod_containers]
  rcases h with h | ⟨c, cs, h, hn⟩
  · obtain ⟨c2, cs2, rest, hc, _, he⟩ := newPodContainers_builtin r runner h
    refine ⟨c2, cs2, hc, ?_, ?_, ?_⟩ <;> rw [he] <;> apply List.mem_append_left <;> assumption
  · obtain ⟨c2, cs2, hc, _, he⟩ := newPodContainers_override_head r runner c cs h hn
    refine ⟨c2, cs2, hc, ?_, ?_, ?_⟩ <;> rw [he] <;> apply List.mem_append_right <;> assumption

theorem first_container_environment_witness :
    ∃ c cs, (newPod sampleReconciler sampleRunner none).1.Spec.Containers = c :: cs ∧
      (⟨"RUNNER_NAME", "r1"⟩ : EnvVar) ∈ c.Env ∧
      (⟨"RUNNER_ORG", ""⟩ : EnvVar) ∈ c.Env ∧
      (⟨"RUNNER_REPO", "acme/app"⟩ : EnvVar) ∈ c.Env :=
  first_container_environment sampleReconciler sampleRunner none (Or.inl rfl)

/-- C14, as stated, fails: when the first record with the requested name is
idle but carries no id (so that `GetID` gives 0), `unregisterRunner` takes it
for a runner that is not listed: it calls no `RemoveRunner` and returns
(false, nil). -/
theorem unregisterRunner_idle_counterexample :
    [({ Name := some "r1", Busy := some false } : GitHubRunner)].find?
        (fun x => x.GetName == "r1") = some { Name := some "r1", Busy := some false } ∧
    ({ Name := some "r1", Busy := some false } : GitHubRunner).GetBusy = false ∧
    unregisterRunner
        { sampleWorld with listRunners := .ok [{ Name := some "r1", Busy := some false }] }
        "" "" "acme/app" "r1"
      = ([.ListRunners "" "" "acme/app"], false, none) := by
  decide

/-- C14, amended: when `ListRunners` returns a list in which the first record
with the requested name is not busy and has a non-zero id, `unregisterRunner`
calls `RemoveRunner` exactly once, with that id, and returns (true, nil) when
the removal succeeds. -/
theorem unregisterRunner_idle_removes (w : World) (enterprise org repo name : String)
    (runners : List GitHubRunner) (g : GitHubRunner)
    (hl : w.listRunners = .ok runners)
    (hf : runners.find? (fun x => x.GetName == name) = some g)
    (hb : g.GetBusy = false)
    (hid : g.GetID ≠ 0) :
    removals (unregisterRunner w enterprise org repo name).1 = [g.GetID] ∧
    (w.removeRunner = none →
      (unregisterRunner w enterprise org repo name).2 = (true, none)) := by
  cases hr : w.removeRunner <;>
    simp [unregisterRunner, hl, unregisterLoop_eq, hf, hb, hid, hr]

theorem unregisterRunner_idle_removes_witness :
    removals (unregisterRunner (deletionWorld false) "" "" "acme/app" "r1").1 = [8] ∧
    ((deletionWorld false).removeRunner = none →
      (unregisterRunner (deletionWorld false) "" "" "acme/app" "r1").2 = (true, none)) :=
  unregisterRunner_idle_removes (deletionWorld false) "" "" "acme/app" "r1" _
    (sampleRecord false) rfl (by decide) rfl (by decide)

/-- C15: when `ListRunners` returns a list with no record of the requested
name, `unregisterRunner` returns (false, nil) and does not call
`RemoveRunner`. -/
theorem unregisterRunner_absent_is_success (w : World) (enterprise org repo name : String)
    (runners : List GitHubRunner)
    (hl : w.listRunners = .ok runners)
    (hnone : ∀ g ∈ runners, g.GetName ≠ name) :
    (unregisterRunner w enterprise org repo name).2 = (false, none) ∧
    removals (unregisterRunner w enterprise org repo name).1 = [] := by
  have hfind : runners.find? (fun x => x.GetName == name) = none := by
    rw [List.find?_eq_none]
    intro x hx
    simpa using hnone x hx
  simp [unregisterRunner, hl, unregisterLoop_eq, hfind]

theorem unregisterRunner_absent_is_success_witness :
    (unregisterRunner (deletionWorld false) "" "" "acme/app" "r9").2 = (false, none) ∧
    removals (unregisterRunner (deletionWorld false) "" "" "acme/app" "r9").1 = [] :=
  unregisterRunner_absent_is_success (deletionWorld false) "" "" "acme/app" "r9" _ rfl
    (by decide)

/-- C16: in a pass that queries `IsRunnerBusy` (so on a live pod) and is
answered with an error that is neither runner-not-found nor runner-offline and
unwraps to a `RateLimitError`, `Reconcile` returns a result whose `RequeueAfter`
is 30 seconds, deletes no pod and issues no write of the Runner. -/
theorem busy_check_rate_limit_delays_retry (r : RunnerReconciler) (w : World) (err : GoError)
    (hq : busyQueries (Reconcile r w).trace ≠ [])
    (hb : w.isRunnerBusy.2 = some err)
    (hnf : err.asRunnerNotFound = false) (hoff : err.asRunnerOffline = false)
    (hrl : err.asRateLimit = true) :
    (Reconcile r w).result = { RequeueAfter := 30 * Second } ∧
    podDeletes (Reconcile r w).trace = [] ∧
    runnerWrites (Reconcile r w).trace = [] := by
  obtain ⟨runner, pod, hc⟩ := Reconcile_query r w hq
  rw [Reconcile_check r w runner pod hc]
  simp [checkRegistration, hc.notDeferred, hb, hnf, hoff, hrl,
    retryDelayOnGitHubAPIRateLimitError]

theorem busy_check_rate_limit_delays_retry_witness :
    (Reconcile sampleReconciler
      { sampleWorld with isRunnerBusy := (false, some rateLimitError) }).result
      = { RequeueAfter := 30 * Second } ∧
    podDeletes (Reconcile sampleReconciler
      { sampleWorld with isRunnerBusy := (false, some rateLimitError) }).trace = [] ∧
    runnerWrites (Reconcile sampleReconciler
      { sampleWorld with isRunnerBusy := (false, some rateLimitError) }).trace = [] :=
  busy_check_rate_limit_delays_retry sampleReconciler
    { sampleWorld with isRunnerBusy := (false, some rateLimitError) } rateLimitError
    (by decide) rfl rfl rfl rfl

/-- C17, evaluated on a Runner that is being deleted, carries the finalizer and
has a token, when the registration service answers with a `RateLimitError`: to
`ListRunners` in the first pass, to `RemoveRunner` in the second.  Both passes
leave the finalizer in place and return the error, but with an empty result:
`RequeueAfter` is 0, not 30 seconds. -/
theorem deregistration_rate_limit_is_not_delayed :
    Reconcile sampleReconciler
        { deletionWorld false with listRunners := .error rateLimitError }
      = ⟨[.ListRunners "" "" "acme/app"], { RequeueAfter := 0 }, some rateLimitError⟩ ∧
    Reconcile sampleReconciler
        { deletionWorld false with removeRunner := some rateLimitError }
      = ⟨[.ListRunners "" "" "acme/app", .RemoveRunner "" "" "acme/app" 8],
          { RequeueAfter := 0 }, some rateLimitError⟩ := by
  decide

/-- C18, as stated, fails twice: when the phases are equal and the reason and
the message of the pod differ from those of the status, the pass that keeps the
pod issues no write; and a pass that is deferred by the debounce keeps the pod,
schedules nothing and issues no write although the phases differ. -/
theorem status_mirror_counterexample :
    (troubledPod.Status.Reason ≠ sampleRunner.Status.Reason ∧
      troubledPod.Status.Message ≠ sampleRunner.Status.Message ∧
      Reconcile sampleReconciler { sampleWorld with getPod := .ok troubledPod }
        = ⟨[.IsRunnerBusy "" "" "acme/app" "r1"], {}, none⟩) ∧
    (samplePod.Status.Phase ≠ checkedRunner.Status.Phase ∧
      Reconcile sampleReconciler { sampleWorld with getRunner := .ok checkedRunner }
        = ⟨[], {}, none⟩) := by
  decide

/-- C18, amended: in a pass that performs the registration check on the pod it
has read, is answered without error and decides no restart (the answer is
busy = true, or the hash label of the pod equals that of `newPod(runner)`),
`Reconcile` deletes no pod and returns an empty result; if the phase of the pod
differs from the phase of the status it issues exactly one write of the
Runner, the status patch that sets phase, reason and message to those of the
pod, and if the phases are equal it issues no write. -/
theorem status_mirrors_pod_phase (r : RunnerReconciler) (w : World)
    (runner : Runner) (pod : Pod) (busy : Bool)
    (hg : w.getRunner = .ok runner) (hp : w.getPod = .ok pod)
    (hq : busyQueries (Reconcile r w).trace ≠ [])
    (hb : w.isRunnerBusy = (busy, none))
    (hh : busy = true ∨
      pod.Labels.get LabelKeyPodTemplateHash =
        (newPod r runner w.setControllerReference).1.Labels.get LabelKeyPodTemplateHash) :
    podDeletes (Reconcile r w).trace = [] ∧
    (Reconcile r w).result = {} ∧
    (runner.Status.Phase ≠ pod.Status.Phase →
      runnerWrites (Reconcile r w).trace =
        [.StatusPatch { runner with
            Status := { runner.Status with
              Phase := pod.Status.Phase
              Reason := pod.Status.Reason
              Message := pod.Status.Message } }]) ∧
    (runner.Status.Phase = pod.Status.Phase → runnerWrites (Reconcile r w).trace = []) := by
  obtain ⟨runner2, pod2, hc⟩ := Reconcile_query r w hq
  have hr : runner2 = runner := by
    have := hc.getRunner; rw [hg] at this; injection this with h; exact h.symm
  have hpd : pod2 = pod := by
    have := hc.getPod; rw [hp] at this; injection this with h; exact h.symm
  subst hr; subst hpd
  rw [Reconcile_check r w runner2 pod2 hc]
  have hrestart : (!busy &&
      pod2.Labels.get LabelKeyPodTemplateHash !=
        (newPod r runner2 w.setControllerReference).1.Labels.get LabelKeyPodTemplateHash)
      = false := by
    rcases hh with h | h
    · simp [h]
    · simp [h]
  have hout : checkRegistration w runner2 pod2 (newPod r runner2 w.setControllerReference).1 []
      = finishLivePod w runner2 pod2 (newPod r runner2 w.setControllerReference).1
        ([] ++ [.IsRunnerBusy runner2.Spec.Enterprise runner2.Spec.Organization
          runner2.Spec.Repository runner2.Name]) false 0 := by
    unfold checkRegistration decideRestart
    simp only [hc.notDeferred, hb, hrestart]
    simp
  rw [hout, finishLivePod_mirror]
  by_cases hph : runner2.Status.Phase = pod2.Status.Phase
  · simp [hph]
  · have hph2 : (runner2.Status.Phase != pod2.Status.Phase) = true := by simpa using hph
    simp [hph, hph2]

theorem status_mirrors_pod_phase_witness :
    podDeletes (Reconcile sampleReconciler firstPass).trace = [] ∧
    (Reconcile sampleReconciler firstPass).result = {} ∧
    (freshRunner.Status.Phase ≠ samplePod.Status.Phase →
      runnerWrites (Reconcile sampleReconciler firstPass).trace =
        [.StatusPatch { freshRunner with
            Status := { freshRunner.Status with
              Phase := samplePod.Status.Phase
              Reason := samplePod.Status.Reason
              Message := samplePod.Status.Message } }]) ∧
    (freshRunner.Status.Phase = samplePod.Status.Phase →
      runnerWrites (Reconcile sampleReconciler firstPass).trace = []) :=
  status_mirrors_pod_phase sampleReconciler firstPass freshRunner samplePod false
    rfl rfl (by decide) rfl (Or.inr (by decide))

/-- C19: for every state read and every answer of the external calls, one pass
of `Reconcile` issues at most one pod call among `Delete` and `Create`: never
both, never two of either. -/
theorem one_pod_call_per_pass (r : RunnerReconciler) (w : World) :
    (podDeletes (Reconcile r w).trace).length + (podCreates (Reconcile r w).trace).length ≤ 1 := by
  cases hg : w.getRunner with
  | error e => simp [Reconcile, hg]
  | ok runner =>
    cases hv : w.validate with
    | some e => simp [Reconcile, hg, hv]
    | none =>
      cases hz : IsZero runner.DeletionTimestamp with
      | false =>
        simp [Reconcile_deleting r w runner hg hv hz, reconcileDeletion_deletes,
          (reconcileDeletion_reads w runner).1]
      | true =>
        by_cases hf : finalizerName ∈ runner.Finalizers
        · rw [Reconcile_ready r w runner hg hv hz hf]
          cases hp : w.getPod with
          | ok pod =>
            cases hl : IsZero pod.DeletionTimestamp with
            | false =>
              rw [reconcilePod_dying r w runner pod hp hl,
                (reconcileTerminatingPod_reads w pod _).1]
              simpa using reconcileTerminatingPod_deletes w pod _
            | true =>
              rw [reconcilePod_live r w runner pod hp hl, (reconcileLivePod_reads r w runner pod).1]
              simpa using reconcileLivePod_deletes r w runner pod
          | error e =>
            cases he : e.apiNotFound with
            | false => simp [reconcilePod_unread r w runner e hp he]
            | true =>
              rw [reconcilePod_missing r w runner e hp he, reconcileNoPod_deletes,
                reconcileNoPod_creates]
              split_ifs <;> simp
        · cases hu : w.update <;> simp [Reconcile, hg, hv, hz, addFinalizer_eq, hf, hu]

/-- C20, as stated, fails: when `GetRegistrationToken` succeeds and the status
update is refused, `updateRegistrationToken` returns false and that error, not
(true, nil). -/
theorem updateRegistrationToken_counterexample :
    tokenWorld.isRegisterable = false ∧
    (updateRegistrationToken { tokenWorld with statusUpdate := some plainError } sampleRunner).2
      = (false, some plainError) := by
  decide

/-- C20, amended: for a Runner that is not registerable, when
`GetRegistrationToken` succeeds with a token, `updateRegistrationToken` issues
exactly one write of the Runner, a status update of the Runner in which
`status.registration` holds the organization, repository and labels of the
spec, the token and its expiry, and every other field has its input value; it
returns (true, nil) when that update succeeds.  For a registerable Runner it
issues no call at all and returns (false, nil). -/
theorem updateRegistrationToken_contract (w : World) (runner : Runner) (rt : RegistrationToken) :
    (w.isRegisterable = false → w.getRegistrationToken = .ok rt →
      runnerWrites (updateRegistrationToken w runner).1 =
        [.StatusUpdate { runner with
            Status := { runner.Status with
              Registration := {
                Organization := runner.Spec.Organization
                Repository := runner.Spec.Repository
                Labels := runner.Spec.Labels
                Token := rt.GetToken
                ExpiresAt := rt.GetExpiresAt } } }] ∧
      (w.statusUpdate = none → (updateRegistrationToken w runner).2 = (true, none))) ∧
    (w.isRegisterable = true → updateRegistrationToken w runner = ([], false, none)) := by
  constructor
  · intro hr hg
    cases hs : w.statusUpdate <;> simp [updateRegistrationToken, hr, hg, hs]
  · intro hr
    simp [updateRegistrationToken, hr]

theorem updateRegistrationToken_contract_witness :
    runnerWrites (updateRegistrationToken tokenWorld sampleRunner).1 =
      [.StatusUpdate { sampleRunner with
          Status := { sampleRunner.Status with
            Registration := {
              Organization := ""
              Repository := "acme/app"
              Labels := []
              Token := "new"
              ExpiresAt := 3700 * Second } } }] ∧
    (updateRegistrationToken tokenWorld sampleRunner).2 = (true, none) ∧
    updateRegistrationToken sampleWorld sampleRunner = ([], false, none) :=
  ⟨((updateRegistrationToken_contract tokenWorld sampleRunner sampleToken).1 rfl rfl).1,
   ((updateRegistrationToken_contract tokenWorld sampleRunner sampleToken).1 rfl rfl).2 rfl,
   (updateRegistrationToken_contract sampleWorld sampleRunner sampleToken).2 rfl⟩

/-- C21: in a pass that has read a Runner, every write of the Runner issued
outside `updateRegistrationToken` (the `Update` that adds the finalizer, the
`Patch` that removes it, and the two status patches) carries the
`status.registration` of the Runner read; and the status updates of the pass,
the only writes that change `status.registration`, are those
`updateRegistrationToken` issues on that Runner. -/
theorem registration_written_only_by_token_manager (r : RunnerReconciler) (w : World)
    (runner : Runner) (hg : w.getRunner = .ok runner) :
    (∀ a ∈ (Reconcile r w).trace, ∀ u, a.asOtherWrite = some u →
      u.Status.Registration = runner.Status.Registration) ∧
    (tokenUpdates (Reconcile r w).trace = [] ∨
      tokenUpdates (Reconcile r w).trace = tokenUpdates (updateRegistrationToken w runner).1) := by
  refine ⟨?_, Reconcile_tokenUpdates r w runner hg⟩
  intro a ha u hu
  have hw := Reconcile_writes r w runner hg a ha
  cases a <;> simp [Action.asOtherWrite] at hu <;> subst hu <;> simp only [expectedWrite] at hw
  · rw [hw.2]
  · rw [hw]
  · rcases hw with hw | ⟨pod, hw⟩ <;> rw [hw]

theorem registration_written_only_by_token_manager_witness :
    (∀ a ∈ (Reconcile sampleReconciler firstPass).trace, ∀ u, a.asOtherWrite = some u →
      u.Status.Registration = freshRunner.Status.Registration) ∧
    (tokenUpdates (Reconcile sampleReconciler firstPass).trace = [] ∨
      tokenUpdates (Reconcile sampleReconciler firstPass).trace
        = tokenUpdates (updateRegistrationToken firstPass freshRunner).1) :=
  registration_written_only_by_token_manager sampleReconciler firstPass freshRunner rfl

/-- C22, as stated, fails: the pass `unlistedWorld`, in which the jitter drawn
inside `wait.Jitter` is 0, schedules a recheck (it writes the check time and
returns no error) and returns `RequeueAfter` = 70 seconds, which is more than
61 seconds. -/
theorem recheck_delay_counterexample :
    unlistedWorld.jitter = 0 ∧
    runnerWrites (Reconcile sampleReconciler unlistedWorld).trace =
      [.StatusPatch { sampleRunner with
          Status := { sampleRunner.Status with
            LastRegistrationCheckTime := some unlistedWorld.nowPatch } }] ∧
    (Reconcile sampleReconciler unlistedWorld).err = none ∧
    (Reconcile sampleReconciler unlistedWorld).result.RequeueAfter = 70 * Second ∧
    ¬ ((Reconcile sampleReconciler unlistedWorld).result.RequeueAfter ≤ 61 * Second) := by
  decide

/-- C22, amended: in a pass that performs the registration check and returns a
non-zero `RequeueAfter` without error (the return of a scheduled recheck, the
only such return of the check), the delay is one minute plus
`wait.Jitter(10 s, 0.1)`, that is one minute plus 10 seconds plus the jitter
drawn inside `wait.Jitter`; for every jitter of at most 10% of 10 seconds,
70 s <= d <= 71 s. -/
theorem recheck_delay_bounds (r : RunnerReconciler) (w : World)
    (hq : busyQueries (Reconcile r w).trace ≠ [])
    (he : (Reconcile r w).err = none)
    (hd : (Reconcile r w).result.RequeueAfter ≠ 0)
    (hj : (w.jitter : Int) * 10 ≤ 10 * Second) :
    (Reconcile r w).result.RequeueAfter = Minute + Jitter (10 * Second) w.jitter ∧
    (Reconcile r w).result.RequeueAfter = 70 * Second + w.jitter ∧
    70 * Second ≤ (Reconcile r w).result.RequeueAfter ∧
    (Reconcile r w).result.RequeueAfter ≤ 71 * Second := by
  obtain ⟨runner, pod, hc⟩ := Reconcile_query r w hq
  rw [Reconcile_check r w runner pod hc] at he hd ⊢
  have hb := recheckDelay_bounds w.jitter hj
  have hsum : Minute + Jitter (10 * Second) w.jitter = 70 * Second + (w.jitter : Int) := by
    have hm : Minute = 60000000000 := by decide
    have hs : Second = 1000000000 := rfl
    unfold Jitter
    rw [hm, hs]
    show (60000000000 + (10 * 1000000000 + (w.jitter : Int)) : Int)
      = 70 * 1000000000 + (w.jitter : Int)
    omega
  rcases checkRegistration_requeue w runner pod _ [] he with h | h
  · exact absurd h hd
  · rw [h]
    exact ⟨rfl, hsum, hb.1, hb.2⟩

theorem recheck_delay_bounds_witness :
    (Reconcile sampleReconciler { unlistedWorld with jitter := 654431816 }).result.RequeueAfter
      = Minute + Jitter (10 * Second) 654431816 ∧
    (Reconcile sampleReconciler { unlistedWorld with jitter := 654431816 }).result.RequeueAfter
      = 70 * Second + (654431816 : Nat) ∧
    70 * Second ≤
      (Reconcile sampleReconciler { unlistedWorld with jitter := 654431816 }).result.RequeueAfter ∧
    (Reconcile sampleReconciler { unlistedWorld with jitter := 654431816 }).result.RequeueAfter
      ≤ 71 * Second :=
  recheck_delay_bounds sampleReconciler { unlistedWorld with jitter := 654431816 }
    (by decide) (by decide) (by decide) (by decide)

/-- C23, as stated, fails: in a pass over a live, uncompleted pod of a
registerable Runner whose last check time plus one minute is after now,
`newPod` is called before the debounce is tested, and when it returns an error
the pass returns that error. -/
theorem debounce_counterexample :
    IsZero samplePod.DeletionTimestamp = true ∧
    podCompleted samplePod = false ∧
    sampleWorld.isRegisterable = true ∧
    checkedRunner.Status.LastRegistrationCheckTime = some (90 * Second) ∧
    sampleWorld.nowDebounce < 90 * Second + Minute ∧
    (Reconcile sampleReconciler
      { sampleWorld with
        getRunner := .ok checkedRunner, setControllerReference := some plainError }).err
      = some plainError := by
  decide

/-- C23, amended: in a pass that reaches a live pod of a registerable Runner
(the Runner is valid, not being deleted and carries the finalizer), where the
pod has not completed and `newPod` succeeds, if
`status.lastRegistrationCheckTime` is set and that time plus one minute is
after now, `Reconcile` issues no call at all (no request to the registration
service, no cluster write) and returns an empty result without error. -/
theorem debounced_pass_is_idle (r : RunnerReconciler) (w : World)
    (runner : Runner) (pod : Pod) (lastCheckTime : Time)
    (hg : w.getRunner = .ok runner) (hv : w.validate = none)
    (hz : IsZero runner.DeletionTimestamp = true)
    (hf : finalizerName ∈ runner.Finalizers)
    (hp : w.getPod = .ok pod) (hl : IsZero pod.DeletionTimestamp = true)
    (hr : w.isRegisterable = true)
    (hc : podCompleted pod = false)
    (hn : (newPod r runner w.setControllerReference).2 = none)
    (hlast : runner.Status.LastRegistrationCheckTime = some lastCheckTime)
    (hafter : w.nowDebounce < lastCheckTime + Minute) :
    (Reconcile r w).trace = [] ∧ (Reconcile r w).result = {} ∧ (Reconcile r w).err = none := by
  rw [newPod_err] at hn
  rw [Reconcile_ready r w runner hg hv hz hf, reconcilePod_live r w runner pod hp hl,
    reconcileLivePod_check r w runner pod hc hr hn]
  have hdef : registrationCheckDeferred w runner = true := by
    simp [registrationCheckDeferred, hlast, Time.After, Time.Add, hafter]
  simp [checkRegistration, hdef]

theorem debounced_pass_is_idle_witness :
    (Reconcile sampleReconciler { sampleWorld with getRunner := .ok checkedRunner }).trace = [] ∧
    (Reconcile sampleReconciler { sampleWorld with getRunner := .ok checkedRunner }).result = {} ∧
    (Reconcile sampleReconciler { sampleWorld with getRunner := .ok checkedRunner }).err = none :=
  debounced_pass_is_idle sampleReconciler { sampleWorld with getRunner := .ok checkedRunner }
    checkedRunner samplePod (90 * Second) rfl rfl (by decide) (by decide) rfl (by decide) rfl
    (by decide) rfl rfl (by decide)

/-- C24, as stated, fails in its last part: for a Runner without container
override and sidecars that disables docker, the pod has the single `runner`
container, yet its environment holds DOCKER_HOST=tcp://localhost:2376 and its
volumes hold an emptyDir volume named `work`, because the Runner brings them
in `spec.env` and `spec.volumes`. -/
theorem docker_sidecar_counterexample :
    externalDockerRunner.Spec.Containers = [] ∧
    externalDockerRunner.Spec.SidecarContainers = [] ∧
    externalDockerRunner.Spec.DockerEnabled = some false ∧
    (newPod sampleReconciler externalDockerRunner none).1.Spec.Containers.length = 1 ∧
    (∃ c ∈ (newPod sampleReconciler externalDockerRunner none).1.Spec.Containers,
      ({ Name := "DOCKER_HOST", Value := "tcp://localhost:2376" } : EnvVar) ∈ c.Env) ∧
    ({ Name := "work", VolumeSource := .EmptyDir } : Volume) ∈
      (newPod sampleReconciler externalDockerRunner none).1.Spec.Volumes := by
  decide

/-- C24, amended: for every Runner with no container override and no sidecar
containers, the pod `newPod` returns has the docker sidecar layout (two
containers, `runner` followed by a privileged `docker` container with the
sidecar image of the controller, the emptyDir volumes `work`, `runner` and
`certs-client` mounted in both, and DOCKER_HOST=tcp://localhost:2376,
DOCKER_TLS_VERIFY=1 and DOCKER_CERT_PATH=/certs/client in the environment of
the runner) if and only if docker within the runner is unset or false and
`dockerEnabled` is unset or true; otherwise the pod has the single `runner`
container and `newPod` adds none of those variables, mounts and volumes: a
variable of those names in the environment comes from `spec.env`, the volume
mounts are those of `spec.volumeMounts` and the volumes those of
`spec.volumes`. -/
theorem docker_sidecar_iff (r : RunnerReconciler) (runner : Runner) (scr : Option GoError)
    (h1 : runner.Spec.Containers = []) (h2 : runner.Spec.SidecarContainers = []) :
    (dockerSidecarLayout r (newPod r runner scr).1 ↔
      ((runner.Spec.DockerdWithinRunnerContainer = none ∨
          runner.Spec.DockerdWithinRunnerContainer = some false) ∧
        (runner.Spec.DockerEnabled = none ∨ runner.Spec.DockerEnabled = some true))) ∧
    (¬ ((runner.Spec.DockerdWithinRunnerContainer = none ∨
          runner.Spec.DockerdWithinRunnerContainer = some false) ∧
        (runner.Spec.DockerEnabled = none ∨ runner.Spec.DockerEnabled = some true)) →
      ∃ c : Container, (newPod r runner scr).1.Spec.Containers = [c] ∧ c.Name = "runner" ∧
        (∀ e ∈ c.Env, e.Name ∈ ["DOCKER_HOST", "DOCKER_TLS_VERIFY", "DOCKER_CERT_PATH"] →
          e ∈ runner.Spec.Env) ∧
        c.VolumeMounts = runner.Spec.VolumeMounts ∧
        (newPod r runner scr).1.Spec.Volumes = runner.Spec.Volumes) := by
  have hcont := newPodContainers_of_builtin r runner h1 h2
  have hplain : ¬ ((runner.Spec.DockerdWithinRunnerContainer = none ∨
          runner.Spec.DockerdWithinRunnerContainer = some false) ∧
        (runner.Spec.DockerEnabled = none ∨ runner.Spec.DockerEnabled = some true)) →
      ∃ c : Container, (newPod r runner scr).1.Spec.Containers = [c] ∧ c.Name = "runner" ∧
        (∀ e ∈ c.Env, e.Name ∈ ["DOCKER_HOST", "DOCKER_TLS_VERIFY", "DOCKER_CERT_PATH"] →
          e ∈ runner.Spec.Env) ∧
        c.VolumeMounts = runner.Spec.VolumeMounts ∧
        (newPod r runner scr).1.Spec.Volumes = runner.Spec.Volumes := by
    intro hc
    obtain ⟨c, hb, hname, hvm, henv⟩ := builtinContainers_plain r runner hc
    rw [hb] at hcont
    refine ⟨{ c with VolumeMounts := c.VolumeMounts ++ runner.Spec.VolumeMounts },
      by rw [newPod_containers, hcont]; rfl, hname, ?_, by simp [hvm], ?_⟩
    · intro e he hn
      have he : e ∈ c.Env := he
      rcases henv with henv | ⟨mtu, henv⟩
      · exact newPodEnv_docker_names r runner e (henv ▸ he) hn
      · have he2 : e ∈ newPodEnv r runner ++ [{ Name := "MTU", Value := mtu }] := henv ▸ he
        rcases List.mem_append.mp he2 with h | h
        · exact newPodEnv_docker_names r runner e h hn
        · exfalso
          simp only [List.mem_singleton] at h
          subst h
          simp at hn
    · rw [newPod_volumes, builtinVolumes_plain runner hc]
      rfl
  refine ⟨⟨?_, ?_⟩, hplain⟩
  · intro hlayout
    by_contra hc
    obtain ⟨c, hone, _⟩ := hplain hc
    obtain ⟨c0, c1, htwo, _⟩ := hlayout
    rw [hone] at htwo
    simp at htwo
  · rintro ⟨hd, he⟩
    obtain ⟨c0, c1, hb, hn0, hvm0, henv0, hn1, himg, hsec, hvm1⟩ :=
      builtinContainers_docker r runner hd he
    rw [hb] at hcont
    have hmount : ∀ (l : List VolumeMount) (n : String),
        l.map (fun m => m.Name) = ["work", "runner", "certs-client"] →
        n ∈ ["work", "runner", "certs-client"] → ∃ m ∈ l, m.Name = n := by
      intro l n hl hn
      rw [← hl] at hn
      obtain ⟨m, hm, hmn⟩ := List.mem_map.mp hn
      exact ⟨m, hm, hmn⟩
    refine ⟨{ c0 with VolumeMounts := c0.VolumeMounts ++ runner.Spec.VolumeMounts }, c1,
      by rw [newPod_containers, hcont]; rfl, hn0, hn1, himg, hsec, ?_, ?_, ?_, ?_⟩
    · intro n hn
      refine ⟨?_, ?_, hmount _ n hvm1 hn⟩
      · rw [newPod_volumes, builtinVolumes_docker runner hd he]
        apply List.mem_append_left
        simp only [List.mem_cons, List.mem_singleton, List.not_mem_nil, or_false] at hn ⊢
        rcases hn with rfl | rfl | rfl <;> simp
      · obtain ⟨m, hm, hmn⟩ := hmount _ n hvm0 hn
        exact ⟨m, List.mem_append_left _ hm, hmn⟩
    · show _ ∈ c0.Env
      rw [henv0]; simp
    · show _ ∈ c0.Env
      rw [henv0]; simp
    · show _ ∈ c0.Env
      rw [henv0]; simp

theorem docker_sidecar_iff_witness :
    dockerSidecarLayout sampleReconciler (newPod sampleReconciler sampleRunner none).1 ∧
    (newPod sampleReconciler externalDockerRunner none).1.Spec.Volumes
      = externalDockerRunner.Spec.Volumes :=
  ⟨(docker_sidecar_iff sampleReconciler sampleRunner none rfl rfl).1.mpr
      ⟨Or.inl rfl, Or.inl rfl⟩,
   by
    obtain ⟨c, _, _, _, _, hv⟩ := (docker_sidecar_iff sampleReconciler externalDockerRunner none
      rfl rfl).2 (by decide)
    exact hv⟩

/-- C25: for every Runner whose `spec.containers` is not empty, the containers
of the pod `newPod` returns are those of `spec.containers`, in order, followed
by `spec.sidecarContainers` (the built-in containers are dropped); a container
of `spec.containers` named `runner` gets the standard environment appended to
its own, a container with another name is unchanged, and the volume mounts of
the spec are appended to the first container.  The standard environment is ten
entries, named RUNNER_NAME to RUNNER_WORKDIR, followed by `spec.env`. -/
theorem override_replaces_containers (r : RunnerReconciler) (runner : Runner)
    (scr : Option GoError) (h : runner.Spec.Containers ≠ []) :
    (newPod r runner scr).1.Spec.Containers =
      modifyFirst (fun c => { c with VolumeMounts := c.VolumeMounts ++ runner.Spec.VolumeMounts })
        (runner.Spec.Containers.map fun c =>
          if c.Name = containerName then { c with Env := c.Env ++ newPodEnv r runner } else c)
      ++ runner.Spec.SidecarContainers ∧
    ∃ ten : List EnvVar, newPodEnv r runner = ten ++ runner.Spec.Env ∧
      ten.map (fun e => e.Name) =
        ["RUNNER_NAME", "RUNNER_ORG", "RUNNER_REPO", "RUNNER_ENTERPRISE", "RUNNER_LABELS",
          "RUNNER_GROUP", "RUNNER_TOKEN", "DOCKERD_IN_RUNNER", "GITHUB_URL", "RUNNER_WORKDIR"] := by
  refine ⟨?_, ?_⟩
  · rw [newPod_containers]
    exact newPodContainers_of_override r runner h
  · exact ⟨_, rfl, rfl⟩

theorem override_replaces_containers_witness :
    (newPod sampleReconciler overrideRunner none).1.Spec.Containers =
      [{ Name := "job", Image := "acme/job:1",
         VolumeMounts := [{ Name := "cache", MountPath := "/cache" }] },
       { Name := "runner", Image := "acme/runner:1",
         Env := [{ Name := "A", Value := "1" }] ++ newPodEnv sampleReconciler overrideRunner },
       { Name := "proxy", Image := "acme/proxy:1" }] :=
  (override_replaces_containers sampleReconciler overrideRunner none (by decide)).1

/-- C26: for every valid Runner that is not being deleted, if its finalizer
list lacks the finalizer of the controller then the only call of the pass is
one `Update` of the Runner with the finalizer appended at the end of the list
(so no pod call and no request to the registration service), and the pass
returns an empty result; if the finalizer is present the pass issues no
`Update` at all. -/
theorem finalizer_is_added_first (r : RunnerReconciler) (w : World) (runner : Runner)
    (hg : w.getRunner = .ok runner) (hv : w.validate = none)
    (hz : IsZero runner.DeletionTimestamp = true) :
    (finalizerName ∉ runner.Finalizers →
      (Reconcile r w).trace =
        [.Update { runner with Finalizers := runner.Finalizers ++ [finalizerName] }] ∧
      (Reconcile r w).result = {}) ∧
    (finalizerName ∈ runner.Finalizers → ∀ u, Action.Update u ∉ (Reconcile r w).trace) := by
  constructor
  · intro hf
    cases hu : w.update <;> simp [Reconcile, hg, hv, hz, addFinalizer_eq, hf, hu]
  · intro hf u hmem
    have hw := Reconcile_writes r w runner hg _ hmem
    simp only [expectedWrite] at hw
    exact hw.1 hf

theorem finalizer_is_added_first_witness :
    (Reconcile sampleReconciler { sampleWorld with getRunner := .ok unmarkedRunner }).trace =
      [.Update { unmarkedRunner with
          Finalizers := ["example.com/cleanup", "runner.actions.summerwind.dev"] }] ∧
    (Reconcile sampleReconciler { sampleWorld with getRunner := .ok unmarkedRunner }).result = {} ∧
    (∀ u, Action.Update u ∉ (Reconcile sampleReconciler sampleWorld).trace) :=
  ⟨((finalizer_is_added_first sampleReconciler
        { sampleWorld with getRunner := .ok unmarkedRunner } unmarkedRunner rfl rfl
        (by decide)).1 (by decide)).1,
   ((finalizer_is_added_first sampleReconciler
        { sampleWorld with getRunner := .ok unmarkedRunner } unmarkedRunner rfl rfl
        (by decide)).1 (by decide)).2,
   (finalizer_is_added_first sampleReconciler sampleWorld sampleRunner rfl rfl
        (by decide)).2 (by decide)⟩

/-- C27: for every finalizer list that does not contain the finalizer of the
controller, `addFinalizer` returns the list with the finalizer appended and
true, and `removeFinalizer` applied to that result returns the original list
and true: removing undoes adding and keeps the other finalizers in order.  For
a list that contains the finalizer, `addFinalizer` returns the list unchanged
and false. -/
theorem addFinalizer_then_removeFinalizer (fs : List String) :
    (finalizerName ∉ fs →
      addFinalizer fs = (fs ++ [finalizerName], true) ∧
      removeFinalizer (addFinalizer fs).1 = (fs, true)) ∧
    (finalizerName ∈ fs → addFinalizer fs = (fs, false)) := by
  constructor
  · intro hf
    have hfilter : fs.filter (fun f => f != finalizerName) = fs := by
      rw [List.filter_eq_self]
      intro a ha
      have : a ≠ finalizerName := fun h => hf (h ▸ ha)
      simpa using this
    simp [addFinalizer_eq, removeFinalizer_eq, hf, hfilter]
  · intro hf
    simp [addFinalizer_eq, hf]

theorem addFinalizer_then_removeFinalizer_witness :
    addFinalizer ["example.com/cleanup"]
      = (["example.com/cleanup", "runner.actions.summerwind.dev"], true) ∧
    removeFinalizer (addFinalizer ["example.com/cleanup"]).1 = (["example.com/cleanup"], true) ∧
    addFinalizer ["runner.actions.summerwind.dev", "example.com/cleanup"]
      = (["runner.actions.summerwind.dev", "example.com/cleanup"], false) :=
  ⟨((addFinalizer_then_removeFinalizer ["example.com/cleanup"]).1 (by decide)).1,
   ((addFinalizer_then_removeFinalizer ["example.com/cleanup"]).1 (by decide)).2,
   (addFinalizer_then_removeFinalizer
      ["runner.actions.summerwind.dev", "example.com/cleanup"]).2 (by decide)⟩

end ARC
